import Mathlib

/-!
Verification of the LoudnessMeter repository core against its specification.

The development shallowly embeds the two core components:

* `EBU128LoudnessMeter` (src/Source/DSP/EBU128LoudnessMeter.cpp / .h): the
  K-weighting filter bank, the 100 ms block accumulator, the 30-slot ring of
  mean-square blocks, and the Momentary / Short-term loudness publication.
* `LoudnessDataStore` (src/Source/Storage/LoudnessDataStore.cpp): the ring
  buffer of loudness points, the multi-level LOD aggregation, and the
  time-range query path.

Machine floating-point numbers (`float` / `double` in the source) are embedded
as exact rationals `ℚ`; C++ `int` / `int64_t` casts that truncate toward zero
are modelled explicitly by `truncQ`.
-/

namespace LoudnessMeter

/-- Truncation of a rational toward zero, the semantics of C++
`static_cast<int>` / `static_cast<int64_t>` applied to a floating value. -/
def truncQ (x : ℚ) : ℤ :=
  if 0 ≤ x then ⌊x⌋ else -⌊-x⌋

/-! ## EBU128LoudnessMeter -/

/-- Biquad filter coefficients, `EBU128LoudnessMeter::BiquadCoeffs`
(EBU128LoudnessMeter.h lines 31-35). -/
structure BiquadCoeffs where
  b0 : ℚ
  b1 : ℚ
  b2 : ℚ
  a1 : ℚ
  a2 : ℚ
  deriving DecidableEq

/-- Biquad filter state, `EBU128LoudnessMeter::BiquadState`
(EBU128LoudnessMeter.h lines 37-40): two delay elements, zero-initialised. -/
structure BiquadState where
  z1 : ℚ
  z2 : ℚ
  deriving DecidableEq

/-- The zero biquad state, the value of `BiquadState{}`. -/
def BiquadState.zero : BiquadState := ⟨0, 0⟩

/-- `EBU128LoudnessMeter::processBiquad` (EBU128LoudnessMeter.cpp lines
97-103): direct-form-II-transposed second-order IIR step.  Returns the output
sample together with the updated state. -/
def processBiquad (coeffs : BiquadCoeffs) (state : BiquadState) (input : ℚ) :
    ℚ × BiquadState :=
  let output := coeffs.b0 * input + state.z1
  (output,
   ⟨coeffs.b1 * input - coeffs.a1 * output + state.z2,
    coeffs.b2 * input - coeffs.a2 * output⟩)

/-- The value published by the meter's atomic loudness outputs.  The source
publishes a `float`; `sentinel` stands for the exact value `-100.0f` and
`lufs x` for `-0.691 + 10 * log10 x` (with `x > 0`).  Since
`-0.691 + 10 * log10 x` is strictly monotone in `x` and never equals `-100`
at a rational mean square, this symbolic representation separates published
values exactly when the published floats differ (up to float rounding, which
the exact-rational embedding ignores throughout). -/
inductive Loudness where
  | sentinel : Loudness
  | lufs : ℚ → Loudness
  deriving DecidableEq

/-- `EBU128LoudnessMeter::calculateLoudness` (EBU128LoudnessMeter.cpp lines
105-112): `-100.0f` when the mean-square sum is `≤ 0`, otherwise
`-0.691 + 10 * log10 x` (kept symbolic as `Loudness.lufs x`). -/
def calculateLoudness (sumMeanSquare : ℚ) : Loudness :=
  if sumMeanSquare ≤ 0 then Loudness.sentinel else Loudness.lufs sumMeanSquare

/-- `kBlocksPerMomentary` (EBU128LoudnessMeter.h line 72). -/
def kBlocksPerMomentary : ℕ := 4

/-- `kBlocksPerShortTerm` (EBU128LoudnessMeter.h line 73). -/
def kBlocksPerShortTerm : ℕ := 30

/-- `kMaxChannels` (EBU128LoudnessMeter.h line 62). -/
def kMaxChannels : ℕ := 8

/-- The state of an `EBU128LoudnessMeter` (EBU128LoudnessMeter.h lines 54-85).
`momentaryLoudness` / `shortTermLoudness` are the atomically published
outputs; everything else is private processing state. -/
structure MeterState where
  numChannels : ℕ
  preFilterCoeffs : BiquadCoeffs
  rlbFilterCoeffs : BiquadCoeffs
  preFilterStates : List BiquadState
  rlbFilterStates : List BiquadState
  channelWeights : List ℚ
  meanSquareBlocks : List ℚ
  currentBlockIndex : ℕ
  currentBlockSum : ℚ
  currentBlockSamples : ℕ
  samplesPerBlock : ℤ
  momentaryLoudness : Loudness
  shortTermLoudness : Loudness
  deriving DecidableEq

/-- `EBU128LoudnessMeter::reset` (EBU128LoudnessMeter.cpp lines 37-53):
zeroes every filter state, the mean-square ring and the block accumulator,
and publishes the `-100.0f` sentinel on both outputs. -/
def meterReset (st : MeterState) : MeterState :=
  { st with
    preFilterStates := List.replicate kMaxChannels BiquadState.zero
    rlbFilterStates := List.replicate kMaxChannels BiquadState.zero
    meanSquareBlocks := List.replicate kBlocksPerShortTerm 0
    currentBlockIndex := 0
    currentBlockSum := 0
    currentBlockSamples := 0
    momentaryLoudness := Loudness.sentinel
    shortTermLoudness := Loudness.sentinel }

/-- The channel-weight table set by `prepare` (EBU128LoudnessMeter.cpp lines
24-32): fill with `1.0`, then LFE (index 3) becomes `0.0` for `≥ 4` channels
and the two surrounds (indices 4, 5) become `1.41` for `≥ 5` / `≥ 6`
channels. -/
def channelWeightsFor (numChannels : ℕ) : List ℚ :=
  let w := List.replicate kMaxChannels (1 : ℚ)
  let w := if 4 ≤ numChannels then w.set 3 0 else w
  let w := if 5 ≤ numChannels then w.set 4 (141/100) else w
  if 6 ≤ numChannels then w.set 5 (141/100) else w

/-- `EBU128LoudnessMeter::prepare` (EBU128LoudnessMeter.cpp lines 10-35).
The filter coefficients are produced, in the source, by
`calculatePreFilterCoeffs` / `calculateRLBCoeffs`, bilinear-transform
formulas involving `tan` of the sample rate; their (irrational) values are
never needed by any claim, so they are taken here as parameters.
`samplesPerBlock` is `static_cast<int>(sampleRate * 0.1)` (line 22), a
truncation toward zero. -/
def meterPrepare (preCoeffs rlbCoeffs : BiquadCoeffs) (sampleRate : ℚ)
    (channels : ℕ) : MeterState :=
  meterReset
    { numChannels := min channels kMaxChannels
      preFilterCoeffs := preCoeffs
      rlbFilterCoeffs := rlbCoeffs
      preFilterStates := List.replicate kMaxChannels BiquadState.zero
      rlbFilterStates := List.replicate kMaxChannels BiquadState.zero
      channelWeights := channelWeightsFor (min channels kMaxChannels)
      meanSquareBlocks := List.replicate kBlocksPerShortTerm 0
      currentBlockIndex := 0
      currentBlockSum := 0
      currentBlockSamples := 0
      samplesPerBlock := truncQ (sampleRate * (1/10))
      momentaryLoudness := Loudness.sentinel
      shortTermLoudness := Loudness.sentinel }

/-- The inner per-channel loop body of `processBlock`
(EBU128LoudnessMeter.cpp lines 123-133): run the sample of channel `ch`
through the cascaded shelf and RLB biquads and add the weighted square of the
result to the running sum.  The accumulator carries both per-channel filter
state lists and the sample sum. -/
def channelStep (preCoeffs rlbCoeffs : BiquadCoeffs) (weights : List ℚ)
    (frame : List ℚ) (acc : List BiquadState × List BiquadState × ℚ)
    (ch : ℕ) : List BiquadState × List BiquadState × ℚ :=
  let input := frame.getD ch 0
  let pre := processBiquad preCoeffs (acc.1.getD ch BiquadState.zero) input
  let kw := processBiquad rlbCoeffs (acc.2.1.getD ch BiquadState.zero) pre.1
  (acc.1.set ch pre.2, acc.2.1.set ch kw.2,
   acc.2.2 + weights.getD ch 0 * kw.1 * kw.1)

/-- The per-sample channel pass of `processBlock` (EBU128LoudnessMeter.cpp
lines 121-133): fold `channelStep` over the active channels
(`min(buffer.getNumChannels(), numChannels)`), starting from the meter's
filter states and a zero sample sum. -/
def framePass (bufferChannels : ℕ) (frame : List ℚ) (st : MeterState) :
    List BiquadState × List BiquadState × ℚ :=
  (List.range (min bufferChannels st.numChannels)).foldl
    (channelStep st.preFilterCoeffs st.rlbFilterCoeffs st.channelWeights frame)
    (st.preFilterStates, st.rlbFilterStates, 0)

/-- The mean square of the block completed by this sample
(EBU128LoudnessMeter.cpp line 142): accumulated sum divided by the
accumulated sample count, both after this sample's contribution. -/
def completedMeanSquare (bufferChannels : ℕ) (frame : List ℚ)
    (st : MeterState) : ℚ :=
  (st.currentBlockSum + (framePass bufferChannels frame st).2.2) /
    ((st.currentBlockSamples + 1 : ℕ) : ℚ)

/-- The ring index read by the Momentary loop (EBU128LoudnessMeter.cpp line
154): `(currentBlockIndex - 1 - i + kBlocksPerShortTerm) %
kBlocksPerShortTerm` in C++ int arithmetic; over ℕ an extra
`+ kBlocksPerShortTerm` keeps the subtraction from underflowing without
changing the residue (`-1` becomes `+ (kBlocksPerShortTerm - 1)`). -/
def ringSlot (idx j : ℕ) : ℕ :=
  (idx + (kBlocksPerShortTerm - 1) - j + kBlocksPerShortTerm)
    % kBlocksPerShortTerm

/-- One iteration of the outer sample loop of
`EBU128LoudnessMeter::processBlock` (EBU128LoudnessMeter.cpp lines 119-169):
filter and accumulate one sample frame; when the accumulated count reaches
`samplesPerBlock`, store the block mean square in the ring, advance the ring
index, clear the accumulator, and publish Momentary (mean of the four ring
slots most recently written, lines 150-158) and Short-term (mean of all 30
ring slots, lines 160-167). -/
def meterStep (bufferChannels : ℕ) (frame : List ℚ) (st : MeterState) :
    MeterState :=
  let pass := framePass bufferChannels frame st
  let sum := st.currentBlockSum + pass.2.2
  let n := st.currentBlockSamples + 1
  if st.samplesPerBlock ≤ (n : ℤ) then
    let meanSquare := sum / (n : ℚ)
    let ring := st.meanSquareBlocks.set st.currentBlockIndex meanSquare
    let idx := (st.currentBlockIndex + 1) % kBlocksPerShortTerm
    let momentarySum :=
      ((List.range kBlocksPerMomentary).map fun i =>
        ring.getD (ringSlot idx i) 0).sum
    let shortTermSum :=
      ((List.range kBlocksPerShortTerm).map fun i => ring.getD i 0).sum
    { st with
      preFilterStates := pass.1
      rlbFilterStates := pass.2.1
      meanSquareBlocks := ring
      currentBlockIndex := idx
      currentBlockSum := 0
      currentBlockSamples := 0
      momentaryLoudness :=
        calculateLoudness (momentarySum / (kBlocksPerMomentary : ℚ))
      shortTermLoudness :=
        calculateLoudness (shortTermSum / (kBlocksPerShortTerm : ℚ)) }
  else
    { st with
      preFilterStates := pass.1
      rlbFilterStates := pass.2.1
      currentBlockSum := sum
      currentBlockSamples := n }

/-- `EBU128LoudnessMeter::processBlock` (EBU128LoudnessMeter.cpp lines
114-170) over a buffer given as a list of sample frames (one list entry per
sample index, each holding the channel samples of that index). -/
def meterProcessBlock (bufferChannels : ℕ) (frames : List (List ℚ))
    (st : MeterState) : MeterState :=
  frames.foldl (fun s f => meterStep bufferChannels f s) st

/-- `EBU128LoudnessMeter::getMomentaryLoudness` (EBU128LoudnessMeter.h line
26): relaxed atomic load of the published Momentary loudness. -/
def getMomentaryLoudness (st : MeterState) : Loudness := st.momentaryLoudness

/-- `EBU128LoudnessMeter::getShortTermLoudness` (EBU128LoudnessMeter.h line
27): relaxed atomic load of the published Short-term loudness. -/
def getShortTermLoudness (st : MeterState) : Loudness := st.shortTermLoudness

/-- Ghost run of the meter: `meterStep` paired with the list of completed
block mean squares, most recent first.  The `.1` component coincides with the
plain meter state (lemma `meterRunH_fst`); the `.2` component records, for
specification purposes only, each block mean square at the moment line 143 of
EBU128LoudnessMeter.cpp stores it into the ring. -/
def meterStepH (bufferChannels : ℕ) (frame : List ℚ)
    (p : MeterState × List ℚ) : MeterState × List ℚ :=
  (meterStep bufferChannels frame p.1,
   if p.1.samplesPerBlock ≤ ((p.1.currentBlockSamples + 1 : ℕ) : ℤ) then
     completedMeanSquare bufferChannels frame p.1 :: p.2
   else p.2)

/-- Run `meterStepH` over a list of frames. -/
def meterRunH (bufferChannels : ℕ) (frames : List (List ℚ))
    (p : MeterState × List ℚ) : MeterState × List ℚ :=
  frames.foldl (fun q f => meterStepH bufferChannels f q) p

/-! ## LoudnessDataStore

The implementation file src/Source/Storage/LoudnessDataStore.cpp uses class
members (`ringBuffer`, `writeIndex`, `pointCount`, `lastProcessedIndex`,
`lodMutex`, the constants `kRingBufferSize`, `kLodLevels`, `kLodFactor`, and
the `RenderData` result struct) that belong to a header version not present
in the repository (the committed LoudnessDataStore.h declares a different,
unused variant of the class).  All algorithms below are translated from the
.cpp; the three missing constants are carried as the abstract configuration
`StoreConfig`, and `RenderData`'s fields are reconstructed from their uses in
the .cpp. -/

/-- A loudness point, `LoudnessPoint` as used by LoudnessDataStore.cpp:
Momentary and Short-term LUFS plus the ingestion timestamp. -/
structure LoudnessPoint where
  momentary : ℚ
  shortTerm : ℚ
  timestamp : ℚ
  deriving DecidableEq

instance : Inhabited LoudnessPoint := ⟨⟨-100, -100, 0⟩⟩

/-- A min/max aggregate bucket, `MinMaxPoint` as used by
LoudnessDataStore.cpp (initialised to `{100, -100, 100, -100, 0.0}`). -/
structure MinMaxPoint where
  minMomentary : ℚ
  maxMomentary : ℚ
  minShortTerm : ℚ
  maxShortTerm : ℚ
  timestamp : ℚ
  deriving DecidableEq

/-- The freshly cleared aggregate `MinMaxPoint{100.0f, -100.0f, 100.0f,
-100.0f, 0.0}` (LoudnessDataStore.cpp lines 38, 86, 158, 217). -/
def initMinMax : MinMaxPoint := ⟨100, -100, 100, -100, 0⟩

instance : Inhabited MinMaxPoint := ⟨initMinMax⟩

/-- One LOD level: its point-reduction factor, the finalized buckets, and
the in-progress accumulator (LoudnessDataStore.cpp lines 7-13, 72-89). -/
structure LodLevel where
  reductionFactor : ℕ
  points : List MinMaxPoint
  accumulator : MinMaxPoint
  accumulatorCount : ℕ
  deriving DecidableEq

instance : Inhabited LodLevel := ⟨⟨1, [], initMinMax, 0⟩⟩

/-- Modelled from the spec: the class constants `kRingBufferSize`,
`kLodLevels` and `kLodFactor` are declared in the absent header version, so
they are kept abstract.  The spec fixes none of them numerically beyond the
reduction factor being "conventionally 4" and the ring covering a bounded
recent window; every claim below is settled for all configurations. -/
structure StoreConfig where
  kRingBufferSize : ℕ
  kLodLevels : ℕ
  kLodFactor : ℕ

/-- Modelled from the spec: a concrete configuration matching the spec's
figures — reduction factor 4 per level, a handful of levels, and a ring
covering a few minutes of 10 Hz points (1800 = 3 minutes). -/
def specConfig : StoreConfig := ⟨1800, 6, 4⟩

/-- The query result struct `RenderData` (declared in the absent header),
with its fields reconstructed from LoudnessDataStore.cpp: `points` (raw
points, line 147), `minMaxPoints` (aggregates, lines 154/169/203...231),
`useMinMax` (lines 148/171/234), `lodLevel` (line 178) and `zoomFactor`
(lines 179/241).  There is no error field: every query yields a
`RenderData`. -/
structure RenderData where
  points : List LoudnessPoint
  minMaxPoints : List MinMaxPoint
  useMinMax : Bool
  lodLevel : ℕ
  zoomFactor : ℚ
  deriving DecidableEq

/-- An empty `RenderData`, as default-constructed at
LoudnessDataStore.cpp line 240. -/
def emptyRenderData : RenderData := ⟨[], [], false, 0, 0⟩

/-- The state of a `LoudnessDataStore` (members used by
LoudnessDataStore.cpp; atomics are embedded as plain fields of the
single-writer state). -/
structure StoreState where
  updateRate : ℚ
  ringBuffer : List LoudnessPoint
  writeIndex : ℕ
  pointCount : ℕ
  currentTimestamp : ℚ
  lastProcessedIndex : ℕ
  lodLevels : List LodLevel
  deriving DecidableEq

/-- `LoudnessDataStore::LoudnessDataStore` (LoudnessDataStore.cpp lines
5-20): level `i` gets reduction factor `kLodFactor ^ i` (the loop multiplies
`factor` by `kLodFactor` once per level), and the ring buffer is filled with
`{-100.0f, -100.0f, 0.0}` points.  The update rate member defaults to the
value used by `prepare`. -/
def initialStore (cfg : StoreConfig) : StoreState :=
  { updateRate := 10
    ringBuffer := List.replicate cfg.kRingBufferSize ⟨-100, -100, 0⟩
    writeIndex := 0
    pointCount := 0
    currentTimestamp := 0
    lastProcessedIndex := 0
    lodLevels := (List.range cfg.kLodLevels).map fun i =>
      ⟨cfg.kLodFactor ^ i, [], initMinMax, 0⟩ }

/-- `LoudnessDataStore::prepare` (LoudnessDataStore.cpp lines 22-25): store
the update rate. -/
def storePrepare (updateRateHz : ℚ) (st : StoreState) : StoreState :=
  { st with updateRate := updateRateHz }

/-- `LoudnessDataStore::reset` (LoudnessDataStore.cpp lines 27-41): zero the
indices, count and clock, and clear every LOD level's buckets and
accumulator (reduction factors are kept). -/
def storeReset (st : StoreState) : StoreState :=
  { st with
    writeIndex := 0
    pointCount := 0
    currentTimestamp := 0
    lastProcessedIndex := 0
    lodLevels := st.lodLevels.map fun lod =>
      { lod with points := [], accumulator := initMinMax,
                 accumulatorCount := 0 } }

/-- `LoudnessDataStore::addPoint` (LoudnessDataStore.cpp lines 43-57): the
timestamp is `pointCount / updateRate` (derived from the ingestion call
count, the `momentary` / `shortTerm` arguments never enter it); the point is
written at `writeIndex`, the index advances modulo `kRingBufferSize`, the
count increments, and the clock takes the new timestamp. -/
def addPoint (cfg : StoreConfig) (momentary shortTerm : ℚ)
    (st : StoreState) : StoreState :=
  let timestamp := (st.pointCount : ℚ) / st.updateRate
  { st with
    ringBuffer := st.ringBuffer.set st.writeIndex ⟨momentary, shortTerm, timestamp⟩
    writeIndex := (st.writeIndex + 1) % cfg.kRingBufferSize
    pointCount := st.pointCount + 1
    currentTimestamp := timestamp }

/-- Run a list of `addPoint` calls in order. -/
def addPoints (cfg : StoreConfig) (ps : List (ℚ × ℚ)) (st : StoreState) :
    StoreState :=
  ps.foldl (fun s p => addPoint cfg p.1 p.2 s) st

/-- The per-point, per-level LOD accumulation of
`processRingBufferToLOD` (LoudnessDataStore.cpp lines 72-89): fold the point
into the level's accumulator; once `reductionFactor` points have been
accumulated, append the finalized bucket and clear the accumulator. -/
def lodAccumulate (point : LoudnessPoint) (lod : LodLevel) : LodLevel :=
  let acc : MinMaxPoint :=
    { minMomentary := min lod.accumulator.minMomentary point.momentary
      maxMomentary := max lod.accumulator.maxMomentary point.momentary
      minShortTerm := min lod.accumulator.minShortTerm point.shortTerm
      maxShortTerm := max lod.accumulator.maxShortTerm point.shortTerm
      timestamp := point.timestamp }
  let cnt := lod.accumulatorCount + 1
  if lod.reductionFactor ≤ cnt then
    { lod with points := lod.points ++ [acc], accumulator := initMinMax,
               accumulatorCount := 0 }
  else
    { lod with accumulator := acc, accumulatorCount := cnt }

/-- `LoudnessDataStore::processRingBufferToLOD` (LoudnessDataStore.cpp lines
59-93): no-op when nothing was ever ingested; otherwise walk the ring from
`lastProcessedIndex` up to `writeIndex` (modulo the ring size), folding each
point into every LOD level, and leave `lastProcessedIndex` at `writeIndex`.
The while loop runs once per slot strictly between the two indices, i.e.
`(writeIndex + kRingBufferSize - lastProcessedIndex) % kRingBufferSize`
times. -/
def processRingBufferToLOD (cfg : StoreConfig) (st : StoreState) :
    StoreState :=
  if st.pointCount = 0 then st
  else
    let pending :=
      (st.writeIndex + cfg.kRingBufferSize - st.lastProcessedIndex)
        % cfg.kRingBufferSize
    let st' := (List.range pending).foldl
      (fun s k =>
        let point := s.ringBuffer.getD
          ((st.lastProcessedIndex + k) % cfg.kRingBufferSize) default
        { s with lodLevels := s.lodLevels.map (lodAccumulate point) })
      st
    { st' with
      lastProcessedIndex :=
        (st.lastProcessedIndex + pending) % cfg.kRingBufferSize }

/-- `LoudnessDataStore::selectLodLevel` (LoudnessDataStore.cpp lines
95-111): pick the coarsest level whose effective points-per-pixel is still at
least 1.5, scanning from the coarsest level down; level 0 otherwise. -/
def selectLodLevel (cfg : StoreConfig) (st : StoreState) (timeRange : ℚ)
    (maxPixels : ℤ) : ℕ :=
  if maxPixels ≤ 0 then 0
  else
    let pointsPerPixel := timeRange * st.updateRate / (maxPixels : ℚ)
    match (List.range cfg.kLodLevels).reverse.find? (fun level =>
        (3/2 : ℚ) ≤ pointsPerPixel /
          (((st.lodLevels.getD level default).reductionFactor : ℚ))) with
    | some level => level
    | none => 0

/-- The bucketed min/max downsample of a raw point list, the second branch of
`getRecentPoints` (LoudnessDataStore.cpp lines 150-172): step through the
points in strides of `bucketSize`, taking per-bucket min/max and the middle
point's timestamp. -/
def bucketRawPoints (temp : List LoudnessPoint) (bucketSize : ℕ) :
    List MinMaxPoint :=
  let n := temp.length
  ((List.range ((n + bucketSize - 1) / bucketSize)).map fun b =>
    let i := b * bucketSize
    let stop := min (i + bucketSize) n
    let mm := ((List.range (stop - i)).map fun o => temp.getD (i + o) default).foldl
      (fun mm p =>
        { mm with
          minMomentary := min mm.minMomentary p.momentary
          maxMomentary := max mm.maxMomentary p.momentary
          minShortTerm := min mm.minShortTerm p.shortTerm
          maxShortTerm := max mm.maxShortTerm p.shortTerm })
      initMinMax
    { mm with timestamp := (temp.getD ((i + stop) / 2) default).timestamp })

/-- The ring-buffer collection loop of `getRecentPoints`
(LoudnessDataStore.cpp lines 119-137): the last `min(pointCount,
kRingBufferSize)` written slots, oldest first, filtered to timestamps inside
`[startTime, endTime]`. -/
def recentTemp (cfg : StoreConfig) (st : StoreState)
    (startTime endTime : ℚ) : List LoudnessPoint :=
  let available := min st.pointCount cfg.kRingBufferSize
  let startIdx :=
    (st.writeIndex + cfg.kRingBufferSize - available) % cfg.kRingBufferSize
  (List.range available).filterMap fun i =>
    let p := st.ringBuffer.getD ((startIdx + i) % cfg.kRingBufferSize) default
    if startTime ≤ p.timestamp ∧ p.timestamp ≤ endTime then some p else none

/-- `LoudnessDataStore::getRecentPoints` (LoudnessDataStore.cpp lines
113-173): serve a query straight from the ring buffer.  Collect the ring
points whose timestamp lies in `[startTime, endTime]`; return them raw when
at most `2 * maxPixels` survive, otherwise min/max-bucketed. -/
def getRecentPoints (cfg : StoreConfig) (st : StoreState)
    (startTime endTime : ℚ) (maxPixels : ℤ) (result : RenderData) :
    RenderData :=
  if st.pointCount = 0 then result
  else
    let temp := recentTemp cfg st startTime endTime
    if temp.isEmpty then result
    else
      let targetPoints := (maxPixels * 2).toNat
      if temp.length ≤ targetPoints then
        { result with points := temp, useMinMax := false }
      else
        let bucketSize := (temp.length + targetPoints - 1) / targetPoints
        { result with minMaxPoints := bucketRawPoints temp bucketSize,
                      useMinMax := true }

/-- The bucketed min/max merge of a slice of LOD buckets, the second branch
of `getLODPoints` (LoudnessDataStore.cpp lines 209-233). -/
def bucketLodPoints (points : List MinMaxPoint) (startIdx numPoints
    bucketSize : ℕ) : List MinMaxPoint :=
  ((List.range ((numPoints + bucketSize - 1) / bucketSize)).map fun b =>
    let i := b * bucketSize
    let stop := min (i + bucketSize) numPoints
    let mm := ((List.range (stop - i)).map fun o =>
        points.getD (startIdx + i + o) default).foldl
      (fun mm p =>
        { mm with
          minMomentary := min mm.minMomentary p.minMomentary
          maxMomentary := max mm.maxMomentary p.maxMomentary
          minShortTerm := min mm.minShortTerm p.minShortTerm
          maxShortTerm := max mm.maxShortTerm p.maxShortTerm })
      initMinMax
    let midIdx := startIdx + (i + stop) / 2
    { mm with timestamp :=
        (points.getD (min midIdx (points.length - 1)) default).timestamp })

/-- The clamped index range of `getLODPoints` (LoudnessDataStore.cpp lines
185-193): start index truncated toward zero (`static_cast<int64_t>`), end
index through `ceil`, both clamped to the level's finalized bucket list. -/
def lodSlice (lod : LodLevel) (rate startTime endTime : ℚ) : ℤ × ℤ :=
  let effectiveRate := rate / (lod.reductionFactor : ℚ)
  (max 0 (truncQ (startTime * effectiveRate)),
   min (lod.points.length : ℤ) ⌈endTime * effectiveRate⌉)

/-- `LoudnessDataStore::getLODPoints` (LoudnessDataStore.cpp lines 175-235):
select a LOD level, convert the time range to a clamped index range at that
level's effective rate, and return the slice — raw when it holds at most
`2 * maxPixels` buckets, min/max-merged otherwise. -/
def getLODPoints (cfg : StoreConfig) (st : StoreState)
    (startTime endTime : ℚ) (maxPixels : ℤ) (result : RenderData) :
    RenderData :=
  let timeRange := endTime - startTime
  let level := selectLodLevel cfg st timeRange maxPixels
  let result := { result with lodLevel := level, zoomFactor := timeRange }
  let lod := st.lodLevels.getD level default
  if lod.points.isEmpty then result
  else
    let startIdx := (lodSlice lod st.updateRate startTime endTime).1
    let endIdx := (lodSlice lod st.updateRate startTime endTime).2
    if endIdx ≤ startIdx then result
    else
      let numPoints := (endIdx - startIdx).toNat
      let targetPoints := maxPixels.toNat
      if numPoints ≤ targetPoints * 2 then
        { result with
          minMaxPoints := ((List.range numPoints).map fun i =>
            lod.points.getD (startIdx.toNat + i) default)
          useMinMax := true }
      else
        let bucketSize := (numPoints + targetPoints - 1) / targetPoints
        { result with
          minMaxPoints :=
            bucketLodPoints lod.points startIdx.toNat numPoints bucketSize
          useMinMax := true }

/-- `LoudnessDataStore::getDataForTimeRange` (LoudnessDataStore.cpp lines
237-265): reject degenerate queries with an empty result; serve queries that
start inside the ring-buffer window from the ring; otherwise fold pending
ring points into the LOD levels (a state mutation, hence the returned pair)
and serve from the selected LOD level. -/
def getDataForTimeRange (cfg : StoreConfig) (st : StoreState)
    (startTime endTime : ℚ) (maxPixels : ℤ) : RenderData × StoreState :=
  let result := { emptyRenderData with zoomFactor := endTime - startTime }
  if maxPixels ≤ 0 ∨ endTime ≤ startTime then (result, st)
  else
    let currentTime := st.currentTimestamp
    let ringBufferDuration := (cfg.kRingBufferSize : ℚ) / st.updateRate
    let ringBufferStartTime := currentTime - ringBufferDuration
    if ringBufferStartTime ≤ startTime then
      (getRecentPoints cfg st startTime endTime maxPixels result, st)
    else
      let st' := processRingBufferToLOD cfg st
      (getLODPoints cfg st' startTime endTime maxPixels result, st')

/-- `LoudnessDataStore::getCurrentTime` (LoudnessDataStore.cpp lines
267-270). -/
def getCurrentTime (st : StoreState) : ℚ := st.currentTimestamp

/-! ## Plugin audio callback -/

/-- `LoudnessMeterAudioProcessor::processBlock` (PluginProcessor.cpp lines
80-89): the audio buffer is handed to the meter (which takes it by const
reference, EBU128LoudnessMeter.h line 23) and then passed through unchanged;
the callback's only effect is on the meter state.  The pair returned here is
(audio buffer as left in place by the callback, meter state). -/
def pluginProcessBlock (bufferChannels : ℕ) (buffer : List (List ℚ))
    (meter : MeterState) : List (List ℚ) × MeterState :=
  (buffer, meterProcessBlock bufferChannels buffer meter)

/-! ## Helper lemmas -/

lemma getD_set_self {α : Type} (l : List α) (i : ℕ) (a d : α)
    (h : i < l.length) : (l.set i a).getD i d = a := by
  rw [List.getD_eq_getElem _ _ (by simpa using h)]
  simp [List.getElem_set]

lemma getD_set_ne {α : Type} (l : List α) (i j : ℕ) (a d : α) (h : i ≠ j) :
    (l.set i a).getD j d = l.getD j d := by
  rcases lt_or_ge j l.length with hj | hj
  · rw [List.getD_eq_getElem _ _ (by simpa using hj),
      List.getD_eq_getElem _ _ hj]
    simp [List.getElem_set, h]
  · rw [List.getD_eq_default _ _ (by simpa using hj),
      List.getD_eq_default _ _ hj]

lemma sum_range_getD : ∀ (n : ℕ) (l : List ℚ),
    ((List.range n).map fun i => l.getD i 0).sum = (l.take n).sum := by
  intro n
  induction n with
  | zero => simp
  | succ n ih =>
    intro l
    rw [List.range_succ_eq_map, List.map_cons, List.map_map]
    cases l with
    | nil =>
      have h := ih ([] : List ℚ)
      simp only [List.take_nil] at h ⊢
      simp only [Function.comp_def, List.getD_nil, List.sum_cons] at h ⊢
      rw [h]
      ring
    | cons a t =>
      have h := ih t
      simp only [List.sum_cons, Function.comp_def, List.getD_cons_succ,
        List.getD_cons_zero, List.take_succ_cons, h]

lemma sum_range_getD_of_length (l : List ℚ) :
    ((List.range l.length).map fun i => l.getD i 0).sum = l.sum := by
  rw [sum_range_getD, List.take_of_length_le le_rfl]

/-- Fields of the meter state untouched by `meterStep`: the per-block
processing never rewrites the configuration established by `prepare`. -/
lemma meterStep_config (bufferChannels : ℕ) (frame : List ℚ)
    (st : MeterState) :
    (meterStep bufferChannels frame st).numChannels = st.numChannels ∧
    (meterStep bufferChannels frame st).channelWeights = st.channelWeights ∧
    (meterStep bufferChannels frame st).preFilterCoeffs = st.preFilterCoeffs ∧
    (meterStep bufferChannels frame st).rlbFilterCoeffs = st.rlbFilterCoeffs ∧
    (meterStep bufferChannels frame st).samplesPerBlock = st.samplesPerBlock := by
  unfold meterStep
  dsimp only
  split <;> exact ⟨rfl, rfl, rfl, rfl, rfl⟩

lemma meterProcessBlock_config (bufferChannels : ℕ) (frames : List (List ℚ)) :
    ∀ st : MeterState,
    (meterProcessBlock bufferChannels frames st).numChannels = st.numChannels ∧
    (meterProcessBlock bufferChannels frames st).channelWeights = st.channelWeights ∧
    (meterProcessBlock bufferChannels frames st).preFilterCoeffs = st.preFilterCoeffs ∧
    (meterProcessBlock bufferChannels frames st).rlbFilterCoeffs = st.rlbFilterCoeffs ∧
    (meterProcessBlock bufferChannels frames st).samplesPerBlock = st.samplesPerBlock := by
  induction frames with
  | nil => intro st; exact ⟨rfl, rfl, rfl, rfl, rfl⟩
  | cons f fs ih =>
    intro st
    have h1 := meterStep_config bufferChannels f st
    have h2 := ih (meterStep bufferChannels f st)
    simp only [meterProcessBlock, List.foldl_cons] at h2 ⊢
    exact ⟨h2.1.trans h1.1, h2.2.1.trans h1.2.1, h2.2.2.1.trans h1.2.2.1,
      h2.2.2.2.1.trans h1.2.2.2.1, h2.2.2.2.2.trans h1.2.2.2.2⟩

/-! ## Claim C3 -/

/-- Follows the spec's words for claim C3: `samplesPerBlock =
round(sampleRate * 0.1)`, the nearest integer to a tenth of the sample
rate. -/
def specSamplesPerBlock (sampleRate : ℚ) : ℤ :=
  round (sampleRate * (1/10))

/-- Claim C3, counterexample: at the standard audio sample rate 11025 Hz the
code's `static_cast<int>(sampleRate * 0.1)` truncates 1102.5 to 1102, while
the spec's `round(sampleRate * 0.1)` gives 1103. -/
theorem C3_counterexample :
    (meterPrepare ⟨1, 0, 0, 0, 0⟩ ⟨1, 0, 0, 0, 0⟩ 11025 2).samplesPerBlock ≠
      specSamplesPerBlock 11025 := by
  have h1 : (meterPrepare ⟨1, 0, 0, 0, 0⟩ ⟨1, 0, 0, 0, 0⟩ 11025 2).samplesPerBlock =
      truncQ ((11025:ℚ) * (1/10)) := rfl
  have h2 : truncQ ((11025:ℚ) * (1/10)) = 1102 := by
    rw [truncQ, if_pos (by norm_num)]; norm_num
  have h3 : specSamplesPerBlock 11025 = 1103 := by
    rw [specSamplesPerBlock, round_eq]; norm_num
  rw [h1, h2, h3]
  decide

/-- Claim C3 (amended): after `prepare`, `samplesPerBlock` is `sampleRate *
0.1` truncated toward zero (the floor, for the nonnegative sample rates in
use), not rounded to nearest; truncation and rounding agree whenever the
sample rate is a multiple of 10 Hz (which covers 8000, 44100, 48000, 96000,
192000 ... but not 11025). -/
theorem C3_samplesPerBlock (pre rlb : BiquadCoeffs) (channels : ℕ)
    (sampleRate : ℚ) (h : 0 ≤ sampleRate) :
    (meterPrepare pre rlb sampleRate channels).samplesPerBlock =
      ⌊sampleRate * (1/10)⌋ ∧
    (∀ k : ℤ, sampleRate = 10 * k →
      (meterPrepare pre rlb sampleRate channels).samplesPerBlock =
        specSamplesPerBlock sampleRate) := by
  have hspb : (meterPrepare pre rlb sampleRate channels).samplesPerBlock =
      truncQ (sampleRate * (1/10)) := rfl
  have hnn : (0:ℚ) ≤ sampleRate * (1/10) := by positivity
  constructor
  · rw [hspb, truncQ, if_pos hnn]
  · intro k hk
    have hval : sampleRate * (1/10) = (k : ℚ) := by
      rw [hk]; ring
    rw [hspb, truncQ, if_pos hnn, specSamplesPerBlock, hval]
    simp

/-- Claim C3 witness: the amended statement at sample rate 48000. -/
theorem C3_witness :
    (0:ℚ) ≤ 48000 ∧
    ((meterPrepare ⟨1, 0, 0, 0, 0⟩ ⟨1, 0, 0, 0, 0⟩ 48000 2).samplesPerBlock =
        ⌊(48000:ℚ) * (1/10)⌋ ∧
      (∀ k : ℤ, (48000:ℚ) = 10 * k →
        (meterPrepare ⟨1, 0, 0, 0, 0⟩ ⟨1, 0, 0, 0, 0⟩ 48000 2).samplesPerBlock =
          specSamplesPerBlock 48000)) :=
  ⟨by decide, C3_samplesPerBlock ⟨1, 0, 0, 0, 0⟩ ⟨1, 0, 0, 0, 0⟩ 2 48000 (by decide)⟩

/-! ## Claim C5 -/

lemma channelWeightsFor_spec (n : ℕ) :
    ((channelWeightsFor n).getD 3 0 = 0 ↔ 4 ≤ n) ∧
    ((channelWeightsFor n).getD 4 0 = 141/100 ↔ 5 ≤ n) ∧
    ((channelWeightsFor n).getD 5 0 = 141/100 ↔ 6 ≤ n) ∧
    (∀ i, i < kMaxChannels → i ≠ 3 → i ≠ 4 → i ≠ 5 →
      (channelWeightsFor n).getD i 0 = 1) := by
  by_cases h4 : 4 ≤ n
  · by_cases h5 : 5 ≤ n
    · by_cases h6 : 6 ≤ n
      · have hL : channelWeightsFor n =
            (((List.replicate kMaxChannels (1:ℚ)).set 3 0).set 4
              (141/100)).set 5 (141/100) := by
          simp only [channelWeightsFor, if_pos h4, if_pos h5, if_pos h6]
        refine ⟨iff_of_true (by rw [hL]; rfl) h4,
          iff_of_true (by rw [hL]; rfl) h5,
          iff_of_true (by rw [hL]; rfl) h6, ?_⟩
        intro i hi hi3 hi4 hi5
        rw [hL]
        simp only [kMaxChannels] at hi
        interval_cases i <;> first | omega | rfl
      · have hL : channelWeightsFor n =
            ((List.replicate kMaxChannels (1:ℚ)).set 3 0).set 4 (141/100) := by
          simp only [channelWeightsFor, if_pos h4, if_pos h5, if_neg h6]
        have g5 : (channelWeightsFor n).getD 5 0 = 1 := by rw [hL]; rfl
        refine ⟨iff_of_true (by rw [hL]; rfl) h4,
          iff_of_true (by rw [hL]; rfl) h5,
          iff_of_false (by rw [g5]; norm_num) h6, ?_⟩
        intro i hi hi3 hi4 hi5
        rw [hL]
        simp only [kMaxChannels] at hi
        interval_cases i <;> first | omega | rfl
    · have h6 : ¬ 6 ≤ n := by omega
      have hL : channelWeightsFor n =
          (List.replicate kMaxChannels (1:ℚ)).set 3 0 := by
        simp only [channelWeightsFor, if_pos h4, if_neg h5, if_neg h6]
      have g4 : (channelWeightsFor n).getD 4 0 = 1 := by rw [hL]; rfl
      have g5 : (channelWeightsFor n).getD 5 0 = 1 := by rw [hL]; rfl
      refine ⟨iff_of_true (by rw [hL]; rfl) h4,
        iff_of_false (by rw [g4]; norm_num) h5,
        iff_of_false (by rw [g5]; norm_num) h6, ?_⟩
      intro i hi hi3 hi4 hi5
      rw [hL]
      simp only [kMaxChannels] at hi
      interval_cases i <;> first | omega | rfl
  · have h5 : ¬ 5 ≤ n := by omega
    have h6 : ¬ 6 ≤ n := by omega
    have hL : channelWeightsFor n = List.replicate kMaxChannels (1:ℚ) := by
      simp only [channelWeightsFor, if_neg h4, if_neg h5, if_neg h6]
    have g3 : (channelWeightsFor n).getD 3 0 = 1 := by rw [hL]; rfl
    have g4 : (channelWeightsFor n).getD 4 0 = 1 := by rw [hL]; rfl
    have g5 : (channelWeightsFor n).getD 5 0 = 1 := by rw [hL]; rfl
    refine ⟨iff_of_false (by rw [g3]; norm_num) h4,
      iff_of_false (by rw [g4]; norm_num) h5,
      iff_of_false (by rw [g5]; norm_num) h6, ?_⟩
    intro i hi hi3 hi4 hi5
    rw [hL]
    simp only [kMaxChannels] at hi
    interval_cases i <;> first | omega | rfl

/-- Claim C5: with `n = min(requested channels, 8)` active channels, the
weight table fixed by `prepare` has weight 0 at index 3 exactly when
`n ≥ 4`, weight 1.41 at index 4 exactly when `n ≥ 5`, weight 1.41 at index 5
exactly when `n ≥ 6`, weight 1 at every other index in use, and
`processBlock` never changes it (the weights multiply the squared filtered
samples inside `channelStep`). -/
theorem C5_channel_weights (pre rlb : BiquadCoeffs) (sampleRate : ℚ)
    (channels : ℕ) :
    ((meterPrepare pre rlb sampleRate channels).channelWeights.getD 3 0 = 0 ↔
      4 ≤ min channels kMaxChannels) ∧
    ((meterPrepare pre rlb sampleRate channels).channelWeights.getD 4 0 = 141/100 ↔
      5 ≤ min channels kMaxChannels) ∧
    ((meterPrepare pre rlb sampleRate channels).channelWeights.getD 5 0 = 141/100 ↔
      6 ≤ min channels kMaxChannels) ∧
    (∀ i, i < min channels kMaxChannels → i ≠ 3 → i ≠ 4 → i ≠ 5 →
      (meterPrepare pre rlb sampleRate channels).channelWeights.getD i 0 = 1) ∧
    (∀ (bufferChannels : ℕ) (frames : List (List ℚ)),
      (meterProcessBlock bufferChannels frames
        (meterPrepare pre rlb sampleRate channels)).channelWeights =
      (meterPrepare pre rlb sampleRate channels).channelWeights) := by
  have hw : (meterPrepare pre rlb sampleRate channels).channelWeights =
      channelWeightsFor (min channels kMaxChannels) := rfl
  have hs := channelWeightsFor_spec (min channels kMaxChannels)
  rw [hw]
  exact ⟨hs.1, hs.2.1, hs.2.2.1,
    fun i hi h3 h4 h5 =>
      hs.2.2.2 i (lt_of_lt_of_le hi (min_le_right _ _)) h3 h4 h5,
    fun bc fs => ((meterProcessBlock_config bc fs _).2.1).trans hw⟩

/-! ## Claim C10 -/

/-- Claim C10: the audio callback leaves every sample of the buffer
unchanged — the meter only reads the audio (the buffer component of
`pluginProcessBlock` is returned as received), and `processBlock` leaves the
prepare-time meter configuration (channel count, weights, coefficients,
block length) alone, mutating only filter states, the block accumulator, the
mean-square ring and the published outputs. -/
theorem C10_buffer_unchanged (bufferChannels : ℕ) (buffer : List (List ℚ))
    (meter : MeterState) :
    (pluginProcessBlock bufferChannels buffer meter).1 = buffer ∧
    (pluginProcessBlock bufferChannels buffer meter).2.numChannels =
      meter.numChannels ∧
    (pluginProcessBlock bufferChannels buffer meter).2.channelWeights =
      meter.channelWeights ∧
    (pluginProcessBlock bufferChannels buffer meter).2.preFilterCoeffs =
      meter.preFilterCoeffs ∧
    (pluginProcessBlock bufferChannels buffer meter).2.rlbFilterCoeffs =
      meter.rlbFilterCoeffs ∧
    (pluginProcessBlock bufferChannels buffer meter).2.samplesPerBlock =
      meter.samplesPerBlock := by
  have h := meterProcessBlock_config bufferChannels buffer meter
  exact ⟨rfl, h.1, h.2.1, h.2.2.1, h.2.2.2.1, h.2.2.2.2⟩

/-! ## Claim C6 -/

/-- The store as the plugin runs it: constructed, `prepare(updateRateHz)`
(PluginProcessor.cpp line 9), then `reset()` (PluginProcessor.cpp line
36). -/
def readyStore (cfg : StoreConfig) (rate : ℚ) : StoreState :=
  storeReset (storePrepare rate (initialStore cfg))

lemma addPoints_track (cfg : StoreConfig) (ps : List (ℚ × ℚ)) :
    ∀ st : StoreState,
    (addPoints cfg ps st).updateRate = st.updateRate ∧
    (addPoints cfg ps st).pointCount = st.pointCount + ps.length ∧
    (addPoints cfg ps st).ringBuffer.length = st.ringBuffer.length ∧
    (addPoints cfg ps st).lodLevels = st.lodLevels ∧
    (st.writeIndex = st.pointCount % cfg.kRingBufferSize →
      (addPoints cfg ps st).writeIndex =
        (addPoints cfg ps st).pointCount % cfg.kRingBufferSize) := by
  induction ps with
  | nil => intro st; exact ⟨rfl, by simp [addPoints], rfl, rfl, fun h => h⟩
  | cons p ps ih =>
    intro st
    have hstep : addPoints cfg (p :: ps) st =
        addPoints cfg ps (addPoint cfg p.1 p.2 st) := rfl
    obtain ⟨h1, h2, h3, h4, h5⟩ := ih (addPoint cfg p.1 p.2 st)
    refine ⟨hstep ▸ h1, ?_, ?_, hstep ▸ h4, ?_⟩
    · rw [hstep, h2]
      simp only [addPoint, List.length_cons]
      omega
    · rw [hstep, h3]
      simp [addPoint]
    · intro hw
      rw [hstep]
      apply h5
      simp only [addPoint, hw]
      rw [Nat.mod_add_mod]

/-- Claim C6: the `(n+1)`-th `addPoint` call since the last reset stores a
point carrying the timestamp `n / updateRate` — built from the ingestion-side
call count alone, never from its caller-supplied loudness arguments — and
`getCurrentTime` immediately afterwards returns exactly that timestamp. -/
theorem C6_sequential_timestamps (cfg : StoreConfig) (rate : ℚ)
    (ps : List (ℚ × ℚ)) (m s : ℚ) (hsz : 0 < cfg.kRingBufferSize)
    (hrate : 0 < rate) :
    (addPoint cfg m s (addPoints cfg ps (readyStore cfg rate))).ringBuffer.getD
        (addPoints cfg ps (readyStore cfg rate)).writeIndex default =
      ⟨m, s, (ps.length : ℚ) / rate⟩ ∧
    getCurrentTime (addPoint cfg m s (addPoints cfg ps (readyStore cfg rate))) =
      (ps.length : ℚ) / rate := by
  obtain ⟨hur, hpc, hlen, -, hwi⟩ := addPoints_track cfg ps (readyStore cfg rate)
  have hbase_w : (readyStore cfg rate).writeIndex =
      (readyStore cfg rate).pointCount % cfg.kRingBufferSize := by
    simp [readyStore, storeReset, storePrepare]
  have hpc0 : (readyStore cfg rate).pointCount = 0 := rfl
  have hw : (addPoints cfg ps (readyStore cfg rate)).writeIndex =
      ps.length % cfg.kRingBufferSize := by
    rw [hwi hbase_w, hpc, hpc0, Nat.zero_add]
  have hlen' : (addPoints cfg ps (readyStore cfg rate)).ringBuffer.length =
      cfg.kRingBufferSize := by
    rw [hlen]
    simp [readyStore, storeReset, storePrepare, initialStore]
  have hcount : (addPoints cfg ps (readyStore cfg rate)).pointCount =
      ps.length := by rw [hpc, hpc0, Nat.zero_add]
  have hts : ((addPoints cfg ps (readyStore cfg rate)).pointCount : ℚ) /
      (addPoints cfg ps (readyStore cfg rate)).updateRate =
      (ps.length : ℚ) / rate := by
    rw [hcount, hur]
    have : (readyStore cfg rate).updateRate = rate := rfl
    rw [this]
  constructor
  · have hset : (addPoint cfg m s (addPoints cfg ps (readyStore cfg rate))).ringBuffer =
        (addPoints cfg ps (readyStore cfg rate)).ringBuffer.set
          (addPoints cfg ps (readyStore cfg rate)).writeIndex
          ⟨m, s, ((addPoints cfg ps (readyStore cfg rate)).pointCount : ℚ) /
            (addPoints cfg ps (readyStore cfg rate)).updateRate⟩ := rfl
    rw [hset, hts, getD_set_self]
    rw [hlen', hw]
    exact Nat.mod_lt _ hsz
  · show ((addPoints cfg ps (readyStore cfg rate)).pointCount : ℚ) /
        (addPoints cfg ps (readyStore cfg rate)).updateRate =
      (ps.length : ℚ) / rate
    exact hts

/-- Claim C6 witness: the third `addPoint` call after reset (two prior
calls) stores timestamp `2 / 10`. -/
theorem C6_witness :
    0 < specConfig.kRingBufferSize ∧ (0:ℚ) < 10 ∧
    ((addPoint specConfig (-20) (-21)
        (addPoints specConfig [(-18, -19), (-17, -16)]
          (readyStore specConfig 10))).ringBuffer.getD
        (addPoints specConfig [(-18, -19), (-17, -16)]
          (readyStore specConfig 10)).writeIndex default =
      ⟨-20, -21, ((([(-18, -19), (-17, -16)] : List (ℚ × ℚ)).length : ℚ)) / 10⟩ ∧
    getCurrentTime (addPoint specConfig (-20) (-21)
        (addPoints specConfig [(-18, -19), (-17, -16)]
          (readyStore specConfig 10))) =
      ((([(-18, -19), (-17, -16)] : List (ℚ × ℚ)).length : ℚ)) / 10) :=
  ⟨by decide, by norm_num,
    C6_sequential_timestamps specConfig 10 [(-18, -19), (-17, -16)] (-20) (-21)
      (by decide) (by norm_num)⟩

/-! ## Claim C9 -/

/-- The bucket duration of a LOD level: the reciprocal of the level's
effective rate `updateRate / reductionFactor` (LoudnessDataStore.cpp line
186), i.e. the time span covered by one finalized bucket of that level. -/
def lodBucketDuration (st : StoreState) (level : ℕ) : ℚ :=
  ((st.lodLevels.getD level default).reductionFactor : ℚ) / st.updateRate

lemma readyStore_factor (cfg : StoreConfig) (rate : ℚ) (k : ℕ)
    (hk : k < cfg.kLodLevels) :
    ((readyStore cfg rate).lodLevels.getD k default).reductionFactor =
      cfg.kLodFactor ^ k := by
  have hlen : (readyStore cfg rate).lodLevels.length = cfg.kLodLevels := by
    simp [readyStore, storeReset, storePrepare, initialStore]
  rw [List.getD_eq_getElem _ _ (by rw [hlen]; exact hk)]
  simp [readyStore, storeReset, storePrepare, initialStore]

/-- Claim C9: the bucket duration of LOD level `k+1` is the bucket duration
of level `k` multiplied by the single fixed reduction factor (the
constructor gives level `k` a point-reduction factor of `kLodFactor ^ k`),
for every consecutive pair of levels. -/
theorem C9_bucket_duration_ratio (cfg : StoreConfig) (rate : ℚ) (k : ℕ)
    (hk : k + 1 < cfg.kLodLevels) :
    lodBucketDuration (readyStore cfg rate) (k + 1) =
      lodBucketDuration (readyStore cfg rate) k * cfg.kLodFactor := by
  rw [lodBucketDuration, lodBucketDuration,
    readyStore_factor cfg rate (k + 1) hk,
    readyStore_factor cfg rate k (by omega)]
  push_cast [pow_succ]
  ring

/-- Claim C9 witness: levels 0 and 1 of the spec configuration at a 10 Hz
update rate. -/
theorem C9_witness :
    0 + 1 < specConfig.kLodLevels ∧
    lodBucketDuration (readyStore specConfig 10) (0 + 1) =
      lodBucketDuration (readyStore specConfig 10) 0 * specConfig.kLodFactor :=
  ⟨by decide, C9_bucket_duration_ratio specConfig 10 0 (by decide)⟩

/-! ## Claim C2 -/

/-- The number of points the store retains: the ring-buffer entries holding
ingested data (at most the ring size) plus every finalized LOD bucket
aggregate across all levels. -/
def retainedPointCount (cfg : StoreConfig) (st : StoreState) : ℕ :=
  min st.pointCount cfg.kRingBufferSize +
    (st.lodLevels.map fun lod => lod.points.length).sum

/-- A store run in its normal operating pattern: each ingested point is
followed by the ring-to-LOD folding that the next LOD-range query performs
(LoudnessDataStore.cpp line 260). -/
def ingestAndFold : ℕ → StoreState
  | 0 => readyStore specConfig 10
  | n + 1 =>
    processRingBufferToLOD specConfig
      (addPoint specConfig (-20) (-21) (ingestAndFold n))

lemma processRingBufferToLOD_spec (cfg : StoreConfig) (st : StoreState)
    (h : ¬ st.pointCount = 0) :
    processRingBufferToLOD cfg st =
    { (List.range ((st.writeIndex + cfg.kRingBufferSize - st.lastProcessedIndex)
          % cfg.kRingBufferSize)).foldl
        (fun s k =>
          { s with lodLevels := s.lodLevels.map (lodAccumulate
              (s.ringBuffer.getD
                ((st.lastProcessedIndex + k) % cfg.kRingBufferSize) default)) })
        st with
      lastProcessedIndex :=
        (st.lastProcessedIndex +
          (st.writeIndex + cfg.kRingBufferSize - st.lastProcessedIndex)
            % cfg.kRingBufferSize) % cfg.kRingBufferSize } := by
  rw [processRingBufferToLOD, if_neg h]

lemma foldl_lodupdate_fields (F : StoreState → ℕ → List LodLevel) :
    ∀ (ks : List ℕ) (s : StoreState),
    ((ks.foldl (fun s k => { s with lodLevels := F s k }) s).updateRate =
      s.updateRate) ∧
    ((ks.foldl (fun s k => { s with lodLevels := F s k }) s).ringBuffer =
      s.ringBuffer) ∧
    ((ks.foldl (fun s k => { s with lodLevels := F s k }) s).writeIndex =
      s.writeIndex) ∧
    ((ks.foldl (fun s k => { s with lodLevels := F s k }) s).pointCount =
      s.pointCount) ∧
    ((ks.foldl (fun s k => { s with lodLevels := F s k }) s).currentTimestamp =
      s.currentTimestamp) ∧
    ((ks.foldl (fun s k => { s with lodLevels := F s k }) s).lastProcessedIndex =
      s.lastProcessedIndex) := by
  intro ks
  induction ks with
  | nil => intro s; exact ⟨rfl, rfl, rfl, rfl, rfl, rfl⟩
  | cons k ks ih =>
    intro s
    obtain ⟨h1, h2, h3, h4, h5, h6⟩ := ih { s with lodLevels := F s k }
    exact ⟨h1, h2, h3, h4, h5, h6⟩

lemma getD_map_lod (f : LodLevel → LodLevel) (l : List LodLevel)
    (h : 0 < l.length) :
    (l.map f).getD 0 default = f (l.getD 0 default) := by
  rw [List.getD_eq_getElem _ _ (by simpa using h),
    List.getD_eq_getElem _ _ h, List.getElem_map]

lemma ingestAndFold_inv (n : ℕ) :
    (ingestAndFold n).pointCount = n ∧
    (ingestAndFold n).writeIndex = n % 1800 ∧
    (ingestAndFold n).lastProcessedIndex = n % 1800 ∧
    0 < (ingestAndFold n).lodLevels.length ∧
    ((ingestAndFold n).lodLevels.getD 0 default).reductionFactor = 1 ∧
    ((ingestAndFold n).lodLevels.getD 0 default).points.length = n := by
  induction n with
  | zero =>
    refine ⟨rfl, rfl, rfl, ?_, rfl, rfl⟩
    have hl6 : (ingestAndFold 0).lodLevels.length = 6 := rfl
    omega
  | succ n ih =>
    obtain ⟨hc, hw, hl, hlen, hrf, hpts⟩ := ih
    have hsz : specConfig.kRingBufferSize = 1800 := rfl
    -- the addPoint stage
    have ha_c : (addPoint specConfig (-20) (-21) (ingestAndFold n)).pointCount
        = n + 1 := by
      show (ingestAndFold n).pointCount + 1 = n + 1
      rw [hc]
    have ha_w : (addPoint specConfig (-20) (-21) (ingestAndFold n)).writeIndex
        = (n + 1) % 1800 := by
      show ((ingestAndFold n).writeIndex + 1) % specConfig.kRingBufferSize
        = (n + 1) % 1800
      rw [hw, hsz, Nat.mod_add_mod]
    have ha_l : (addPoint specConfig (-20) (-21)
        (ingestAndFold n)).lastProcessedIndex = n % 1800 := hl
    have ha_lod : (addPoint specConfig (-20) (-21) (ingestAndFold n)).lodLevels
        = (ingestAndFold n).lodLevels := rfl
    have ha_ne : ¬ (addPoint specConfig (-20) (-21)
        (ingestAndFold n)).pointCount = 0 := by omega
    -- the folding stage processes exactly one pending point
    have hpend : ((addPoint specConfig (-20) (-21) (ingestAndFold n)).writeIndex
          + specConfig.kRingBufferSize -
          (addPoint specConfig (-20) (-21) (ingestAndFold n)).lastProcessedIndex)
          % specConfig.kRingBufferSize = 1 := by
      rw [ha_w, ha_l, hsz]
      omega
    have hstep : ingestAndFold (n + 1) =
        { (List.range 1).foldl
            (fun s k =>
              { s with lodLevels := s.lodLevels.map (lodAccumulate
                  (s.ringBuffer.getD
                    (((addPoint specConfig (-20) (-21)
                        (ingestAndFold n)).lastProcessedIndex + k)
                      % specConfig.kRingBufferSize) default)) })
            (addPoint specConfig (-20) (-21) (ingestAndFold n)) with
          lastProcessedIndex :=
            ((addPoint specConfig (-20) (-21)
                (ingestAndFold n)).lastProcessedIndex + 1)
              % specConfig.kRingBufferSize } := by
      show processRingBufferToLOD specConfig
          (addPoint specConfig (-20) (-21) (ingestAndFold n)) = _
      rw [processRingBufferToLOD_spec _ _ ha_ne, hpend]
    rw [hstep]
    have hr1 : List.range 1 = [0] := rfl
    rw [hr1, List.foldl_cons, List.foldl_nil]
    dsimp only
    refine ⟨ha_c, ha_w, ?_, ?_, ?_, ?_⟩
    · rw [ha_l, hsz, Nat.mod_add_mod]
    · rw [List.length_map]
      exact hlen
    · rw [ha_lod, getD_map_lod _ _ hlen]
      rw [lodAccumulate]
      rw [if_pos (by rw [hrf]; omega)]
      exact hrf
    · rw [ha_lod, getD_map_lod _ _ hlen]
      rw [lodAccumulate]
      rw [if_pos (by rw [hrf]; omega)]
      show (((ingestAndFold n).lodLevels.getD 0 default).points ++ _).length = n + 1
      rw [List.length_append, hpts]
      rfl

lemma ingestAndFold_lodSum (n : ℕ) :
    n ≤ ((ingestAndFold n).lodLevels.map fun lod => lod.points.length).sum := by
  obtain ⟨-, -, -, hlen, -, hpts⟩ := ingestAndFold_inv n
  cases h : (ingestAndFold n).lodLevels with
  | nil => rw [h] at hlen; simp at hlen
  | cons l0 rest =>
    rw [h] at hpts
    have h0 : l0.points.length = n := hpts
    rw [List.map_cons, List.sum_cons, h0]
    omega

/-- Claim C2, counterexample: in the store's normal operating pattern
(points ingested at 10 Hz, ring folded into the LOD levels by queries), no
fixed bound caps the number of retained points — LOD level 0 has reduction
factor 1 and gains one never-evicted finalized aggregate per ingested point,
so the total grows past every bound as `addPoint` calls accumulate. -/
theorem C2_counterexample :
    ¬ ∃ B : ℕ, ∀ n : ℕ,
      retainedPointCount specConfig (ingestAndFold n) ≤ B := by
  rintro ⟨B, hB⟩
  have hsum := ingestAndFold_lodSum (B + 1)
  have hle := hB (B + 1)
  rw [retainedPointCount] at hle
  omega

/-- Claim C2 (amended): the ring buffer alone is bounded — a run of pure
`addPoint` calls retains at most `kRingBufferSize` points, since `addPoint`
never touches the LOD levels — but once ring points are folded into the LOD
levels (as every LOD-range query does), the finalized level-0 aggregates
accumulate one per processed point and are never dropped, spilled or
coarsened away, so total retention grows at least linearly in the number of
`addPoint` calls instead of staying below a fixed bound. -/
theorem C2_amended :
    (∀ (cfg : StoreConfig) (rate : ℚ) (ps : List (ℚ × ℚ)),
      retainedPointCount cfg (addPoints cfg ps (readyStore cfg rate)) ≤
        cfg.kRingBufferSize) ∧
    (∀ n : ℕ, n ≤ retainedPointCount specConfig (ingestAndFold n)) := by
  constructor
  · intro cfg rate ps
    obtain ⟨-, -, -, hlod, -⟩ := addPoints_track cfg ps (readyStore cfg rate)
    rw [retainedPointCount, hlod]
    have hz : ((readyStore cfg rate).lodLevels.map
        fun lod => lod.points.length).sum = 0 := by
      apply List.sum_eq_zero
      intro x hx
      rw [List.mem_map] at hx
      obtain ⟨lod, hlod', rfl⟩ := hx
      have hready : (readyStore cfg rate).lodLevels =
          (initialStore cfg).lodLevels.map
            (fun l => { l with points := [], accumulator := initMinMax,
                               accumulatorCount := 0 }) := rfl
      rw [hready, List.mem_map] at hlod'
      obtain ⟨l0, -, rfl⟩ := hlod'
      rfl
    rw [hz]
    omega
  · intro n
    have hsum := ingestAndFold_lodSum n
    rw [retainedPointCount]
    omega

/-- Claim C5 witness: the weight table for 6 prepared channels. -/
theorem C5_witness :
    (((meterPrepare ⟨1, 0, 0, 0, 0⟩ ⟨1, 0, 0, 0, 0⟩ 48000 6).channelWeights.getD 3 0 = 0 ↔
      4 ≤ min 6 kMaxChannels) ∧
    ((meterPrepare ⟨1, 0, 0, 0, 0⟩ ⟨1, 0, 0, 0, 0⟩ 48000 6).channelWeights.getD 4 0 = 141/100 ↔
      5 ≤ min 6 kMaxChannels) ∧
    ((meterPrepare ⟨1, 0, 0, 0, 0⟩ ⟨1, 0, 0, 0, 0⟩ 48000 6).channelWeights.getD 5 0 = 141/100 ↔
      6 ≤ min 6 kMaxChannels) ∧
    (∀ i, i < min 6 kMaxChannels → i ≠ 3 → i ≠ 4 → i ≠ 5 →
      (meterPrepare ⟨1, 0, 0, 0, 0⟩ ⟨1, 0, 0, 0, 0⟩ 48000 6).channelWeights.getD i 0 = 1) ∧
    (∀ (bufferChannels : ℕ) (frames : List (List ℚ)),
      (meterProcessBlock bufferChannels frames
        (meterPrepare ⟨1, 0, 0, 0, 0⟩ ⟨1, 0, 0, 0, 0⟩ 48000 6)).channelWeights =
      (meterPrepare ⟨1, 0, 0, 0, 0⟩ ⟨1, 0, 0, 0, 0⟩ 48000 6).channelWeights)) :=
  C5_channel_weights ⟨1, 0, 0, 0, 0⟩ ⟨1, 0, 0, 0, 0⟩ 48000 6

/-! ## Claim C8 -/

lemma getD_mem_or {α : Type} (l : List α) (n : ℕ) (d : α) :
    l.getD n d ∈ l ∨ l.getD n d = d := by
  rcases lt_or_ge n l.length with h | h
  · left
    rw [List.getD_eq_getElem _ _ h]
    exact List.getElem_mem h
  · right
    exact List.getD_eq_default _ _ h

lemma recentTemp_eq_nil (cfg : StoreConfig) (st : StoreState)
    (startTime endTime : ℚ)
    (h : ∀ p ∈ st.ringBuffer,
      ¬(startTime ≤ p.timestamp ∧ p.timestamp ≤ endTime))
    (hd : ¬(startTime ≤ (0:ℚ) ∧ (0:ℚ) ≤ endTime)) :
    recentTemp cfg st startTime endTime = [] := by
  rw [recentTemp]
  apply List.filterMap_eq_nil_iff.mpr
  intro i _
  dsimp only
  rcases getD_mem_or st.ringBuffer
      (((st.writeIndex + cfg.kRingBufferSize -
          min st.pointCount cfg.kRingBufferSize) % cfg.kRingBufferSize + i)
        % cfg.kRingBufferSize) default with hm | hm
  · rw [if_neg (h _ hm)]
  · rw [hm]
    have hts : (default : LoudnessPoint).timestamp = (0:ℚ) := rfl
    rw [hts, if_neg hd]

lemma getRecentPoints_of_nil (cfg : StoreConfig) (st : StoreState)
    (startTime endTime : ℚ) (maxPixels : ℤ) (result : RenderData)
    (h : recentTemp cfg st startTime endTime = []) :
    getRecentPoints cfg st startTime endTime maxPixels result = result := by
  rw [getRecentPoints]
  split
  · rfl
  · rw [h]
    rfl

lemma lodSlice_nonpos (lod : LodLevel) (rate startTime endTime : ℚ)
    (hrate : 0 ≤ rate) (he : endTime < 0) :
    (lodSlice lod rate startTime endTime).2 ≤
      (lodSlice lod rate startTime endTime).1 := by
  rw [lodSlice]
  dsimp only
  have heff : (0:ℚ) ≤ rate / (lod.reductionFactor : ℚ) :=
    div_nonneg hrate (by positivity)
  have hmul : endTime * (rate / (lod.reductionFactor : ℚ)) ≤ 0 :=
    mul_nonpos_of_nonpos_of_nonneg he.le heff
  calc min (lod.points.length : ℤ) ⌈endTime * (rate / (lod.reductionFactor : ℚ))⌉
      ≤ ⌈endTime * (rate / (lod.reductionFactor : ℚ))⌉ := min_le_right _ _
    _ ≤ 0 := Int.ceil_le.mpr (by exact_mod_cast hmul)
    _ ≤ max 0 (truncQ (startTime * (rate / (lod.reductionFactor : ℚ)))) :=
        le_max_left _ _

lemma getLODPoints_empty_proj (cfg : StoreConfig) (st : StoreState)
    (startTime endTime : ℚ) (maxPixels : ℤ) (result : RenderData)
    (h : (st.lodLevels.getD
            (selectLodLevel cfg st (endTime - startTime) maxPixels)
            default).points = [] ∨
         (lodSlice (st.lodLevels.getD
            (selectLodLevel cfg st (endTime - startTime) maxPixels) default)
            st.updateRate startTime endTime).2 ≤
         (lodSlice (st.lodLevels.getD
            (selectLodLevel cfg st (endTime - startTime) maxPixels) default)
            st.updateRate startTime endTime).1) :
    (getLODPoints cfg st startTime endTime maxPixels result).points =
      result.points ∧
    (getLODPoints cfg st startTime endTime maxPixels result).minMaxPoints =
      result.minMaxPoints := by
  rw [getLODPoints]
  dsimp only
  rcases h with h | h
  · rw [if_pos (by rw [h]; rfl)]
    exact ⟨rfl, rfl⟩
  · by_cases h0 : (st.lodLevels.getD
        (selectLodLevel cfg st (endTime - startTime) maxPixels)
        default).points.isEmpty = true
    · rw [if_pos h0]
      exact ⟨rfl, rfl⟩
    · rw [if_neg h0, if_pos h]
      exact ⟨rfl, rfl⟩

lemma processRingBufferToLOD_fields (cfg : StoreConfig) (st : StoreState) :
    (processRingBufferToLOD cfg st).updateRate = st.updateRate ∧
    (processRingBufferToLOD cfg st).ringBuffer = st.ringBuffer ∧
    (processRingBufferToLOD cfg st).writeIndex = st.writeIndex ∧
    (processRingBufferToLOD cfg st).pointCount = st.pointCount ∧
    (processRingBufferToLOD cfg st).currentTimestamp = st.currentTimestamp := by
  by_cases h : st.pointCount = 0
  · rw [processRingBufferToLOD, if_pos h]
    exact ⟨rfl, rfl, rfl, rfl, rfl⟩
  · rw [processRingBufferToLOD_spec _ _ h]
    obtain ⟨h1, h2, h3, h4, h5, -⟩ := foldl_lodupdate_fields _ (List.range
      ((st.writeIndex + cfg.kRingBufferSize - st.lastProcessedIndex)
        % cfg.kRingBufferSize)) st
    exact ⟨h1, h2, h3, h4, h5⟩

lemma lod_points_of_zero_count (cfg : StoreConfig) (st : StoreState)
    (hlod : ∀ lod ∈ st.lodLevels, lod.points = []) (level : ℕ) :
    (st.lodLevels.getD level default).points = [] := by
  rcases getD_mem_or st.lodLevels level default with hm | hm
  · exact hlod _ hm
  · rw [hm]
    rfl

/-- Claim C8: a query whose time range lies entirely outside the ingested
data (before time zero, after the newest point, or against a store with no
points at all) yields an empty point sequence — and structurally cannot
signal an error, `RenderData` having no error channel.  The invariants
assumed of the state hold of every store reachable through `addPoint` /
`getDataForTimeRange` after reset, at a positive update rate. -/
theorem C8_outside_range_empty (cfg : StoreConfig) (st : StoreState)
    (startTime endTime : ℚ) (maxPixels : ℤ)
    (hrate : 0 < st.updateRate)
    (hcur : 0 ≤ st.currentTimestamp)
    (hring : ∀ p ∈ st.ringBuffer,
      0 ≤ p.timestamp ∧ p.timestamp ≤ st.currentTimestamp)
    (hlod : st.pointCount = 0 → ∀ lod ∈ st.lodLevels, lod.points = [])
    (hout : endTime < 0 ∨ st.currentTimestamp < startTime ∨
      st.pointCount = 0) :
    (getDataForTimeRange cfg st startTime endTime maxPixels).1.points = [] ∧
    (getDataForTimeRange cfg st startTime endTime maxPixels).1.minMaxPoints
      = [] := by
  rw [getDataForTimeRange]
  by_cases hdeg : maxPixels ≤ 0 ∨ endTime ≤ startTime
  · rw [if_pos hdeg]
    exact ⟨rfl, rfl⟩
  · rw [if_neg hdeg]
    dsimp only
    have hse : startTime < endTime := by
      push_neg at hdeg
      exact hdeg.2
    by_cases hbr : st.currentTimestamp -
        (cfg.kRingBufferSize : ℚ) / st.updateRate ≤ startTime
    · rw [if_pos hbr]
      by_cases hc0 : st.pointCount = 0
      · rw [getRecentPoints, if_pos hc0]
        exact ⟨rfl, rfl⟩
      · have hnm : ∀ p ∈ st.ringBuffer,
            ¬(startTime ≤ p.timestamp ∧ p.timestamp ≤ endTime) := by
          intro p hp hcontra
          obtain ⟨hp0, hpc⟩ := hring p hp
          rcases hout with he | hs | h0
          · linarith [hcontra.2]
          · linarith [hcontra.1]
          · exact hc0 h0
        have hd : ¬(startTime ≤ (0:ℚ) ∧ (0:ℚ) ≤ endTime) := by
          rintro ⟨hd1, hd2⟩
          rcases hout with he | hs | h0
          · linarith
          · linarith
          · exact hc0 h0
        rw [getRecentPoints_of_nil _ _ _ _ _ _ (recentTemp_eq_nil _ _ _ _ hnm hd)]
        exact ⟨rfl, rfl⟩
    · rw [if_neg hbr]
      dsimp only
      have hdur : (0:ℚ) ≤ (cfg.kRingBufferSize : ℚ) / st.updateRate :=
        div_nonneg (by positivity) hrate.le
      obtain ⟨hur, -, -, hpc, -⟩ := processRingBufferToLOD_fields cfg st
      rcases hout with he | hs | h0
      · refine getLODPoints_empty_proj _ _ _ _ _ _ (Or.inr ?_)
        rw [hur]
        exact lodSlice_nonpos _ _ _ _ hrate.le he
      · exact absurd (by linarith : st.currentTimestamp -
          (cfg.kRingBufferSize : ℚ) / st.updateRate ≤ startTime) hbr
      · refine getLODPoints_empty_proj _ _ _ _ _ _ (Or.inl ?_)
        have hst' : processRingBufferToLOD cfg st = st := by
          rw [processRingBufferToLOD, if_pos h0]
        rw [hst']
        exact lod_points_of_zero_count cfg st (hlod h0) _

/-- Claim C8 witness: a query over `[5, 7]` against a freshly reset store
into which nothing has been ingested. -/
theorem C8_witness :
    ((0:ℚ) < (readyStore specConfig 10).updateRate) ∧
    ((0:ℚ) ≤ (readyStore specConfig 10).currentTimestamp) ∧
    (∀ p ∈ (readyStore specConfig 10).ringBuffer,
      0 ≤ p.timestamp ∧
        p.timestamp ≤ (readyStore specConfig 10).currentTimestamp) ∧
    ((readyStore specConfig 10).pointCount = 0 →
      ∀ lod ∈ (readyStore specConfig 10).lodLevels, lod.points = []) ∧
    ((7:ℚ) < 0 ∨ (readyStore specConfig 10).currentTimestamp < 5 ∨
      (readyStore specConfig 10).pointCount = 0) ∧
    ((getDataForTimeRange specConfig (readyStore specConfig 10)
        5 7 100).1.points = [] ∧
     (getDataForTimeRange specConfig (readyStore specConfig 10)
        5 7 100).1.minMaxPoints = []) := by
  have h1 : (0:ℚ) < (readyStore specConfig 10).updateRate := by
    show (0:ℚ) < 10
    norm_num
  have h2 : (0:ℚ) ≤ (readyStore specConfig 10).currentTimestamp :=
    le_refl 0
  have h3 : ∀ p ∈ (readyStore specConfig 10).ringBuffer,
      0 ≤ p.timestamp ∧
        p.timestamp ≤ (readyStore specConfig 10).currentTimestamp := by
    intro p hp
    have hr : (readyStore specConfig 10).ringBuffer =
        List.replicate 1800 ⟨-100, -100, 0⟩ := rfl
    rw [hr] at hp
    rw [List.eq_of_mem_replicate hp]
    exact ⟨le_refl 0, le_refl 0⟩
  have h4 : (readyStore specConfig 10).pointCount = 0 →
      ∀ lod ∈ (readyStore specConfig 10).lodLevels, lod.points = [] := by
    intro _ lod hlod
    have hl : (readyStore specConfig 10).lodLevels =
        ((List.range 6).map fun i =>
          (⟨specConfig.kLodFactor ^ i, [], initMinMax, 0⟩ : LodLevel)).map
          fun l => { l with points := [], accumulator := initMinMax,
                            accumulatorCount := 0 } := rfl
    rw [hl, List.mem_map] at hlod
    obtain ⟨a, -, rfl⟩ := hlod
    rfl
  have h5 : (7:ℚ) < 0 ∨ (readyStore specConfig 10).currentTimestamp < 5 ∨
      (readyStore specConfig 10).pointCount = 0 := Or.inr (Or.inr rfl)
  exact ⟨h1, h2, h3, h4, h5,
    C8_outside_range_empty specConfig (readyStore specConfig 10)
      5 7 100 h1 h2 h3 h4 h5⟩

/-! ## Claim C7 -/

lemma processRingBufferToLOD_lastProcessed (cfg : StoreConfig)
    (st : StoreState) (hW : st.writeIndex < cfg.kRingBufferSize)
    (hL : st.lastProcessedIndex < cfg.kRingBufferSize)
    (h : ¬ st.pointCount = 0) :
    (processRingBufferToLOD cfg st).lastProcessedIndex = st.writeIndex := by
  rw [processRingBufferToLOD_spec _ _ h]
  show (st.lastProcessedIndex +
      (st.writeIndex + cfg.kRingBufferSize - st.lastProcessedIndex)
        % cfg.kRingBufferSize) % cfg.kRingBufferSize = st.writeIndex
  rcases le_or_lt st.lastProcessedIndex st.writeIndex with hle | hlt
  · have h1 : st.writeIndex + cfg.kRingBufferSize - st.lastProcessedIndex =
        (st.writeIndex - st.lastProcessedIndex) + cfg.kRingBufferSize := by
      omega
    rw [h1, Nat.add_mod_right]
    have h15 : (st.writeIndex - st.lastProcessedIndex) % cfg.kRingBufferSize =
        st.writeIndex - st.lastProcessedIndex := Nat.mod_eq_of_lt (by omega)
    rw [h15]
    have h2 : st.lastProcessedIndex +
        (st.writeIndex - st.lastProcessedIndex) = st.writeIndex := by omega
    rw [h2, Nat.mod_eq_of_lt hW]
  · have h1 : st.writeIndex + cfg.kRingBufferSize - st.lastProcessedIndex <
        cfg.kRingBufferSize := by omega
    rw [Nat.mod_eq_of_lt h1]
    have h2 : st.lastProcessedIndex +
        (st.writeIndex + cfg.kRingBufferSize - st.lastProcessedIndex) =
        st.writeIndex + cfg.kRingBufferSize := by omega
    rw [h2, Nat.add_mod_right, Nat.mod_eq_of_lt hW]

lemma processRingBufferToLOD_stable (cfg : StoreConfig) (st : StoreState)
    (hW : st.writeIndex < cfg.kRingBufferSize)
    (hEq : st.lastProcessedIndex = st.writeIndex) :
    processRingBufferToLOD cfg st = st := by
  by_cases h : st.pointCount = 0
  · rw [processRingBufferToLOD, if_pos h]
  · rw [processRingBufferToLOD_spec _ _ h, hEq]
    have h1 : (st.writeIndex + cfg.kRingBufferSize - st.writeIndex)
        % cfg.kRingBufferSize = 0 := by
      have h2 : st.writeIndex + cfg.kRingBufferSize - st.writeIndex =
          cfg.kRingBufferSize := by omega
      rw [h2, Nat.mod_self]
    rw [h1]
    show ({ st with lastProcessedIndex :=
      (st.writeIndex + 0) % cfg.kRingBufferSize } : StoreState) = st
    have h3 : (st.writeIndex + 0) % cfg.kRingBufferSize = st.writeIndex := by
      rw [Nat.add_zero, Nat.mod_eq_of_lt hW]
    rw [h3]
    have h4 : ({ st with lastProcessedIndex := st.writeIndex } : StoreState) =
        { st with lastProcessedIndex := st.lastProcessedIndex } := by
      rw [hEq]
    rw [h4]

/-- Claim C7: with no intervening `addPoint` (and a single caller), two
successive identical `getDataForTimeRange` queries return identical
`RenderData` (same points, LOD level and flags) and leave the store in the
same state — even though the first call may fold pending ring-buffer points
into the LOD levels (the second call then finds `lastProcessedIndex` already
at `writeIndex` and folds nothing). -/
theorem C7_query_idempotent (cfg : StoreConfig) (st : StoreState)
    (startTime endTime : ℚ) (maxPixels : ℤ)
    (hW : st.writeIndex < cfg.kRingBufferSize)
    (hL : st.lastProcessedIndex < cfg.kRingBufferSize) :
    (getDataForTimeRange cfg
        (getDataForTimeRange cfg st startTime endTime maxPixels).2
        startTime endTime maxPixels).1 =
      (getDataForTimeRange cfg st startTime endTime maxPixels).1 ∧
    (getDataForTimeRange cfg
        (getDataForTimeRange cfg st startTime endTime maxPixels).2
        startTime endTime maxPixels).2 =
      (getDataForTimeRange cfg st startTime endTime maxPixels).2 := by
  by_cases hdeg : maxPixels ≤ 0 ∨ endTime ≤ startTime
  · have h1 : getDataForTimeRange cfg st startTime endTime maxPixels =
        ({ emptyRenderData with zoomFactor := endTime - startTime }, st) := by
      rw [getDataForTimeRange, if_pos hdeg]
    rw [h1, h1]
    exact ⟨rfl, rfl⟩
  · by_cases hbr : st.currentTimestamp -
        (cfg.kRingBufferSize : ℚ) / st.updateRate ≤ startTime
    · have h1 : getDataForTimeRange cfg st startTime endTime maxPixels =
          (getRecentPoints cfg st startTime endTime maxPixels
            { emptyRenderData with zoomFactor := endTime - startTime }, st) := by
        rw [getDataForTimeRange, if_neg hdeg]
        dsimp only
        rw [if_pos hbr]
      rw [h1, h1]
      exact ⟨rfl, rfl⟩
    · obtain ⟨hur, hrb, hwi, hpc, hct⟩ := processRingBufferToLOD_fields cfg st
      have h1 : getDataForTimeRange cfg st startTime endTime maxPixels =
          (getLODPoints cfg (processRingBufferToLOD cfg st) startTime endTime
            maxPixels
            { emptyRenderData with zoomFactor := endTime - startTime },
           processRingBufferToLOD cfg st) := by
        rw [getDataForTimeRange, if_neg hdeg]
        dsimp only
        rw [if_neg hbr]
      have hbr' : ¬((processRingBufferToLOD cfg st).currentTimestamp -
          (cfg.kRingBufferSize : ℚ) / (processRingBufferToLOD cfg st).updateRate
            ≤ startTime) := by
        rw [hct, hur]
        exact hbr
      have hstab : processRingBufferToLOD cfg (processRingBufferToLOD cfg st) =
          processRingBufferToLOD cfg st := by
        by_cases hc : st.pointCount = 0
        · have he : processRingBufferToLOD cfg st = st := by
            rw [processRingBufferToLOD, if_pos hc]
          rw [he]
          exact he
        · apply processRingBufferToLOD_stable
          · rw [hwi]
            exact hW
          · rw [processRingBufferToLOD_lastProcessed cfg st hW hL hc, hwi]
      have h2 : getDataForTimeRange cfg (processRingBufferToLOD cfg st)
          startTime endTime maxPixels =
          (getLODPoints cfg (processRingBufferToLOD cfg st) startTime endTime
            maxPixels
            { emptyRenderData with zoomFactor := endTime - startTime },
           processRingBufferToLOD cfg st) := by
        rw [getDataForTimeRange, if_neg hdeg]
        dsimp only
        rw [if_neg hbr', hstab]
      rw [h1, h2]
      exact ⟨rfl, rfl⟩

/-- Claim C7 witness: the double query over `[0, 2]` on a freshly reset
store. -/
theorem C7_witness :
    (readyStore specConfig 10).writeIndex < specConfig.kRingBufferSize ∧
    (readyStore specConfig 10).lastProcessedIndex < specConfig.kRingBufferSize ∧
    ((getDataForTimeRange specConfig
        (getDataForTimeRange specConfig (readyStore specConfig 10) 0 2 5).2
        0 2 5).1 =
      (getDataForTimeRange specConfig (readyStore specConfig 10) 0 2 5).1 ∧
    (getDataForTimeRange specConfig
        (getDataForTimeRange specConfig (readyStore specConfig 10) 0 2 5).2
        0 2 5).2 =
      (getDataForTimeRange specConfig (readyStore specConfig 10) 0 2 5).2) :=
  ⟨by decide, by decide,
    C7_query_idempotent specConfig (readyStore specConfig 10) 0 2 5
      (by decide) (by decide)⟩

/-! ## Claim C4 -/

lemma getD_zero_of_all_zero {l : List ℚ} (h : ∀ x ∈ l, x = 0) (i : ℕ) :
    l.getD i 0 = 0 := by
  rcases getD_mem_or l i 0 with hm | hm
  · exact h _ hm
  · exact hm

lemma processBiquad_zero (c : BiquadCoeffs) :
    processBiquad c BiquadState.zero 0 = (0, BiquadState.zero) := by
  rw [processBiquad, BiquadState.zero]
  simp

/-- The all-silent meter invariant: zero filter states, zero accumulator,
zero mean-square ring, sentinel outputs. -/
def ZeroInv (st : MeterState) : Prop :=
  (∀ b ∈ st.preFilterStates, b = BiquadState.zero) ∧
  (∀ b ∈ st.rlbFilterStates, b = BiquadState.zero) ∧
  st.currentBlockSum = 0 ∧
  (∀ q ∈ st.meanSquareBlocks, q = (0:ℚ)) ∧
  st.momentaryLoudness = Loudness.sentinel ∧
  st.shortTermLoudness = Loudness.sentinel

lemma zeroInv_prepare (pre rlb : BiquadCoeffs) (sampleRate : ℚ)
    (channels : ℕ) : ZeroInv (meterPrepare pre rlb sampleRate channels) := by
  refine ⟨?_, ?_, rfl, ?_, rfl, rfl⟩ <;>
    exact fun b hb => List.eq_of_mem_replicate hb

lemma foldl_channelStep_zero (pre rlb : BiquadCoeffs) (weights : List ℚ)
    (frame : List ℚ) (hframe : ∀ x ∈ frame, x = (0:ℚ)) :
    ∀ (ks : List ℕ) (acc : List BiquadState × List BiquadState × ℚ),
    (∀ b ∈ acc.1, b = BiquadState.zero) →
    (∀ b ∈ acc.2.1, b = BiquadState.zero) →
    (∀ b ∈ (ks.foldl (channelStep pre rlb weights frame) acc).1,
      b = BiquadState.zero) ∧
    (∀ b ∈ (ks.foldl (channelStep pre rlb weights frame) acc).2.1,
      b = BiquadState.zero) ∧
    (ks.foldl (channelStep pre rlb weights frame) acc).2.2 = acc.2.2 := by
  intro ks
  induction ks with
  | nil => exact fun acc h1 h2 => ⟨h1, h2, rfl⟩
  | cons k ks ih =>
    intro acc h1 h2
    have hin : frame.getD k 0 = 0 := getD_zero_of_all_zero hframe k
    have hs1 : acc.1.getD k BiquadState.zero = BiquadState.zero := by
      rcases getD_mem_or acc.1 k BiquadState.zero with hm | hm
      · exact h1 _ hm
      · exact hm
    have hs2 : acc.2.1.getD k BiquadState.zero = BiquadState.zero := by
      rcases getD_mem_or acc.2.1 k BiquadState.zero with hm | hm
      · exact h2 _ hm
      · exact hm
    have hstep : channelStep pre rlb weights frame acc k =
        (acc.1.set k BiquadState.zero, acc.2.1.set k BiquadState.zero,
          acc.2.2) := by
      rw [channelStep]
      rw [hin, hs1, processBiquad_zero]
      dsimp only
      rw [hs2, processBiquad_zero]
      dsimp only
      simp
    rw [List.foldl_cons, hstep]
    have hz1 : ∀ b ∈ acc.1.set k BiquadState.zero, b = BiquadState.zero := by
      intro b hb
      rcases List.mem_or_eq_of_mem_set hb with hm | hm
      · exact h1 _ hm
      · exact hm
    have hz2 : ∀ b ∈ acc.2.1.set k BiquadState.zero, b = BiquadState.zero := by
      intro b hb
      rcases List.mem_or_eq_of_mem_set hb with hm | hm
      · exact h2 _ hm
      · exact hm
    exact ih _ hz1 hz2

lemma framePass_zero (bufferChannels : ℕ) (frame : List ℚ) (st : MeterState)
    (hframe : ∀ x ∈ frame, x = (0:ℚ))
    (h1 : ∀ b ∈ st.preFilterStates, b = BiquadState.zero)
    (h2 : ∀ b ∈ st.rlbFilterStates, b = BiquadState.zero) :
    (∀ b ∈ (framePass bufferChannels frame st).1, b = BiquadState.zero) ∧
    (∀ b ∈ (framePass bufferChannels frame st).2.1, b = BiquadState.zero) ∧
    (framePass bufferChannels frame st).2.2 = 0 :=
  foldl_channelStep_zero st.preFilterCoeffs st.rlbFilterCoeffs
    st.channelWeights frame hframe
    (List.range (min bufferChannels st.numChannels))
    (st.preFilterStates, st.rlbFilterStates, 0) h1 h2

lemma meterStep_zero (bufferChannels : ℕ) (frame : List ℚ) (st : MeterState)
    (hframe : ∀ x ∈ frame, x = (0:ℚ)) (h : ZeroInv st) :
    ZeroInv (meterStep bufferChannels frame st) := by
  obtain ⟨hp, hr, hsum, hring, hm, hs⟩ := h
  obtain ⟨hf1, hf2, hf3⟩ := framePass_zero bufferChannels frame st hframe hp hr
  rw [meterStep]
  dsimp only
  split
  · have hms : (st.currentBlockSum + (framePass bufferChannels frame st).2.2) /
        ((st.currentBlockSamples + 1 : ℕ) : ℚ) = 0 := by
      rw [hf3, hsum, add_zero, zero_div]
    have hringz : ∀ q ∈ st.meanSquareBlocks.set st.currentBlockIndex
        ((st.currentBlockSum + (framePass bufferChannels frame st).2.2) /
          ((st.currentBlockSamples + 1 : ℕ) : ℚ)), q = (0:ℚ) := by
      intro q hq
      rcases List.mem_or_eq_of_mem_set hq with hmem | hmem
      · exact hring _ hmem
      · rw [hmem, hms]
    have hmom : (((List.range kBlocksPerMomentary).map fun i =>
        (st.meanSquareBlocks.set st.currentBlockIndex
          ((st.currentBlockSum + (framePass bufferChannels frame st).2.2) /
            ((st.currentBlockSamples + 1 : ℕ) : ℚ))).getD
          (ringSlot ((st.currentBlockIndex + 1) % kBlocksPerShortTerm) i)
          0).sum) = 0 := by
      apply List.sum_eq_zero
      intro x hx
      rw [List.mem_map] at hx
      obtain ⟨i, -, rfl⟩ := hx
      exact getD_zero_of_all_zero hringz _
    have hst : (((List.range kBlocksPerShortTerm).map fun i =>
        (st.meanSquareBlocks.set st.currentBlockIndex
          ((st.currentBlockSum + (framePass bufferChannels frame st).2.2) /
            ((st.currentBlockSamples + 1 : ℕ) : ℚ))).getD i 0).sum) = 0 := by
      apply List.sum_eq_zero
      intro x hx
      rw [List.mem_map] at hx
      obtain ⟨i, -, rfl⟩ := hx
      exact getD_zero_of_all_zero hringz _
    refine ⟨hf1, hf2, rfl, hringz, ?_, ?_⟩
    · show calculateLoudness _ = Loudness.sentinel
      rw [hmom, calculateLoudness, if_pos]
      rw [zero_div]
    · show calculateLoudness _ = Loudness.sentinel
      rw [hst, calculateLoudness, if_pos]
      rw [zero_div]
  · refine ⟨hf1, hf2, ?_, hring, hm, hs⟩
    show st.currentBlockSum + (framePass bufferChannels frame st).2.2 = 0
    rw [hf3, hsum, add_zero]

lemma meterProcessBlock_zero (bufferChannels : ℕ) :
    ∀ (fs : List (List ℚ)) (st : MeterState),
    (∀ fr ∈ fs, ∀ x ∈ fr, x = (0:ℚ)) → ZeroInv st →
    ZeroInv (meterProcessBlock bufferChannels fs st) := by
  intro fs
  induction fs with
  | nil => exact fun st _ h => h
  | cons f fs ih =>
    intro st hz h
    have h1 := meterStep_zero bufferChannels f st
      (hz f (List.mem_cons_self f fs)) h
    exact ih _ (fun fr hfr => hz fr (List.mem_cons_of_mem f hfr)) h1

/-- Claim C4: a prepared meter fed nothing but all-zero samples — for at
least 3 seconds' worth (30 blocks), though in fact for any duration —
publishes exactly the `-100.0` sentinel on both the Momentary and the
Short-term output. -/
theorem C4_silence_sentinel (pre rlb : BiquadCoeffs) (sampleRate : ℚ)
    (channels bufferChannels : ℕ) (fs : List (List ℚ))
    (hzero : ∀ fr ∈ fs, ∀ x ∈ fr, x = (0:ℚ))
    (hdur : 30 * (meterPrepare pre rlb sampleRate channels).samplesPerBlock ≤
      (fs.length : ℤ)) :
    getMomentaryLoudness (meterProcessBlock bufferChannels fs
      (meterPrepare pre rlb sampleRate channels)) = Loudness.sentinel ∧
    getShortTermLoudness (meterProcessBlock bufferChannels fs
      (meterPrepare pre rlb sampleRate channels)) = Loudness.sentinel := by
  obtain ⟨-, -, -, -, hm, hs⟩ := meterProcessBlock_zero bufferChannels fs
    (meterPrepare pre rlb sampleRate channels) hzero
    (zeroInv_prepare pre rlb sampleRate channels)
  exact ⟨hm, hs⟩

/-- Claim C4 witness: 3 seconds of stereo silence at a 10 Hz toy sample rate
(30 one-sample blocks). -/
theorem C4_witness :
    (∀ fr ∈ List.replicate 30 [(0:ℚ), 0], ∀ x ∈ fr, x = (0:ℚ)) ∧
    (30 * (meterPrepare ⟨1, 0, 0, 0, 0⟩ ⟨1, 0, 0, 0, 0⟩ 10 2).samplesPerBlock ≤
      ((List.replicate 30 [(0:ℚ), 0]).length : ℤ)) ∧
    (getMomentaryLoudness (meterProcessBlock 2 (List.replicate 30 [(0:ℚ), 0])
      (meterPrepare ⟨1, 0, 0, 0, 0⟩ ⟨1, 0, 0, 0, 0⟩ 10 2)) = Loudness.sentinel ∧
    getShortTermLoudness (meterProcessBlock 2 (List.replicate 30 [(0:ℚ), 0])
      (meterPrepare ⟨1, 0, 0, 0, 0⟩ ⟨1, 0, 0, 0, 0⟩ 10 2)) = Loudness.sentinel) := by
  have hz : ∀ fr ∈ List.replicate 30 [(0:ℚ), 0], ∀ x ∈ fr, x = (0:ℚ) := by
    intro fr hfr x hx
    rw [List.eq_of_mem_replicate hfr] at hx
    simpa using hx
  have hd : 30 * (meterPrepare ⟨1, 0, 0, 0, 0⟩ ⟨1, 0, 0, 0, 0⟩ 10 2).samplesPerBlock ≤
      ((List.replicate 30 [(0:ℚ), 0]).length : ℤ) := by
    have hspb : (meterPrepare ⟨1, 0, 0, 0, 0⟩ ⟨1, 0, 0, 0, 0⟩ 10 2).samplesPerBlock = 1 := by
      show truncQ ((10:ℚ) * (1/10)) = 1
      rw [truncQ, if_pos (by norm_num)]
      norm_num
    rw [hspb]
    simp
  exact ⟨hz, hd, C4_silence_sentinel ⟨1, 0, 0, 0, 0⟩ ⟨1, 0, 0, 0, 0⟩ 10 2 2
    (List.replicate 30 [(0:ℚ), 0]) hz hd⟩

/-! ## Claim C1 -/

/-- The ghost pair-run agrees with the plain meter run on its state
component: the history list is pure bookkeeping. -/
lemma meterRunH_fst (bufferChannels : ℕ) :
    ∀ (fs : List (List ℚ)) (p : MeterState × List ℚ),
    (meterRunH bufferChannels fs p).1 = meterProcessBlock bufferChannels fs p.1 := by
  intro fs
  induction fs with
  | nil => intro p; rfl
  | cons f fs ih =>
    intro p
    exact ih (meterStepH bufferChannels f p)

/-- The correspondence between the meter's mean-square ring and the history
of completed block mean squares (most recent first): ring slot
`ringSlot currentBlockIndex j` holds the `j`-th most recent completed block
(0 for slots never yet written, matching the zero-filled ring). -/
def RingInv (st : MeterState) (hist : List ℚ) : Prop :=
  st.currentBlockIndex < kBlocksPerShortTerm ∧
  st.meanSquareBlocks.length = kBlocksPerShortTerm ∧
  ∀ j < kBlocksPerShortTerm,
    st.meanSquareBlocks.getD (ringSlot st.currentBlockIndex j) 0 =
      hist.getD j 0

lemma ringInv_prepare (pre rlb : BiquadCoeffs) (sampleRate : ℚ)
    (channels : ℕ) :
    RingInv (meterPrepare pre rlb sampleRate channels) [] := by
  refine ⟨Nat.succ_pos 29, rfl, ?_⟩
  intro j _
  rw [List.getD_nil]
  exact getD_zero_of_all_zero (fun x hx => List.eq_of_mem_replicate hx) _

lemma ringInv_stepH (bufferChannels : ℕ) (frame : List ℚ)
    (p : MeterState × List ℚ) (h : RingInv p.1 p.2) :
    RingInv (meterStepH bufferChannels frame p).1
      (meterStepH bufferChannels frame p).2 := by
  obtain ⟨hidx, hlen, hslot⟩ := h
  by_cases hc : p.1.samplesPerBlock ≤ ((p.1.currentBlockSamples + 1 : ℕ) : ℤ)
  · have hsnd : (meterStepH bufferChannels frame p).2 =
        completedMeanSquare bufferChannels frame p.1 :: p.2 := by
      rw [meterStepH, if_pos hc]
    have hfst : (meterStepH bufferChannels frame p).1 =
        meterStep bufferChannels frame p.1 := rfl
    rw [RingInv, hsnd, hfst, meterStep]
    dsimp only
    rw [if_pos hc]
    dsimp only
    simp only [kBlocksPerShortTerm] at hidx hslot ⊢
    refine ⟨by omega, by rw [List.length_set]; exact hlen, ?_⟩
    intro j hj
    rcases Nat.eq_zero_or_pos j with rfl | hj1
    · have hs : ringSlot ((p.1.currentBlockIndex + 1) % 30) 0 =
          p.1.currentBlockIndex := by
        rw [ringSlot]
        simp only [kBlocksPerShortTerm]
        omega
      rw [hs, getD_set_self _ _ _ _ (by rw [hlen]; exact hidx)]
      rfl
    · obtain ⟨j', rfl⟩ : ∃ j', j = j' + 1 := ⟨j - 1, by omega⟩
      have hs : ringSlot ((p.1.currentBlockIndex + 1) % 30) (j' + 1) =
          ringSlot p.1.currentBlockIndex j' := by
        rw [ringSlot, ringSlot]
        simp only [kBlocksPerShortTerm]
        omega
      have hne : p.1.currentBlockIndex ≠ ringSlot p.1.currentBlockIndex j' := by
        rw [ringSlot]
        simp only [kBlocksPerShortTerm]
        omega
      rw [hs, getD_set_ne _ _ _ _ _ hne]
      have hold := hslot j' (by omega)
      rw [hold]
      rfl
  · have hsnd : (meterStepH bufferChannels frame p).2 = p.2 := by
      rw [meterStepH, if_neg hc]
    have hmsb : (meterStepH bufferChannels frame p).1.meanSquareBlocks =
        p.1.meanSquareBlocks := by
      show (meterStep bufferChannels frame p.1).meanSquareBlocks = _
      rw [meterStep]
      dsimp only
      rw [if_neg hc]
    have hcbi : (meterStepH bufferChannels frame p).1.currentBlockIndex =
        p.1.currentBlockIndex := by
      show (meterStep bufferChannels frame p.1).currentBlockIndex = _
      rw [meterStep]
      dsimp only
      rw [if_neg hc]
    refine ⟨?_, ?_, ?_⟩
    · rw [hcbi]; exact hidx
    · rw [hmsb]; exact hlen
    · intro j hj
      rw [hsnd, hmsb, hcbi]
      exact hslot j hj

lemma ringInv_run (bufferChannels : ℕ) :
    ∀ (fs : List (List ℚ)) (p : MeterState × List ℚ), RingInv p.1 p.2 →
    RingInv (meterRunH bufferChannels fs p).1
      (meterRunH bufferChannels fs p).2 := by
  intro fs
  induction fs with
  | nil => exact fun p h => h
  | cons f fs ih =>
    intro p h
    exact ih _ (ringInv_stepH bufferChannels f p h)

lemma meterStep_publishes (bufferChannels : ℕ) (frame : List ℚ)
    (st : MeterState) (hist : List ℚ) (hinv : RingInv st hist)
    (hc : st.samplesPerBlock ≤ ((st.currentBlockSamples + 1 : ℕ) : ℤ)) :
    (meterStep bufferChannels frame st).momentaryLoudness =
      calculateLoudness
        (((completedMeanSquare bufferChannels frame st :: hist).take
          kBlocksPerMomentary).sum / (kBlocksPerMomentary : ℚ)) ∧
    (meterStep bufferChannels frame st).shortTermLoudness =
      calculateLoudness
        ((meterStep bufferChannels frame st).meanSquareBlocks.sum /
          (kBlocksPerShortTerm : ℚ)) := by
  obtain ⟨hidx', hlen', hslot'⟩ := ringInv_stepH bufferChannels frame
    (st, hist) hinv
  have hsnd : (meterStepH bufferChannels frame (st, hist)).2 =
      completedMeanSquare bufferChannels frame st :: hist := by
    rw [meterStepH, if_pos hc]
  rw [hsnd] at hslot'
  have hfst : (meterStepH bufferChannels frame (st, hist)).1 =
      meterStep bufferChannels frame st := rfl
  rw [hfst] at hidx' hlen' hslot'
  have hmom : (meterStep bufferChannels frame st).momentaryLoudness =
      calculateLoudness
        ((((List.range kBlocksPerMomentary).map fun i =>
          (meterStep bufferChannels frame st).meanSquareBlocks.getD
            (ringSlot (meterStep bufferChannels frame st).currentBlockIndex i)
            0).sum) / (kBlocksPerMomentary : ℚ)) := by
    rw [meterStep]
    dsimp only
    rw [if_pos hc]
  have hstl : (meterStep bufferChannels frame st).shortTermLoudness =
      calculateLoudness
        ((((List.range kBlocksPerShortTerm).map fun i =>
          (meterStep bufferChannels frame st).meanSquareBlocks.getD i 0).sum) /
          (kBlocksPerShortTerm : ℚ)) := by
    rw [meterStep]
    dsimp only
    rw [if_pos hc]
  constructor
  · rw [hmom]
    congr 2
    have hmaps : ((List.range kBlocksPerMomentary).map fun i =>
        (meterStep bufferChannels frame st).meanSquareBlocks.getD
          (ringSlot (meterStep bufferChannels frame st).currentBlockIndex i)
          0) = (List.range kBlocksPerMomentary).map fun i =>
        (completedMeanSquare bufferChannels frame st :: hist).getD i 0 := by
      apply List.map_congr_left
      intro i hi
      rw [List.mem_range] at hi
      exact hslot' i (by
        simp only [kBlocksPerMomentary] at hi
        simp only [kBlocksPerShortTerm]
        omega)
    rw [hmaps, sum_range_getD]
  · rw [hstl]
    congr 2
    have htake : (meterStep bufferChannels frame st).meanSquareBlocks.take
        kBlocksPerShortTerm = (meterStep bufferChannels frame st).meanSquareBlocks :=
      List.take_of_length_le (le_of_eq hlen')
    rw [← hlen', sum_range_getD_of_length]

/-- Claim C1: starting from a prepared meter and running any frame sequence,
whenever the next frame completes a 100 ms block (the accumulated sample
count reaches `samplesPerBlock`), the meter publishes Momentary =
`loudness(mean of the 4 most recently completed mean-square blocks)` (the
ghost history, most recent first — at least 4 must have completed for the
phrase to apply) and Short-term = `loudness(mean of all 30 ring entries)`,
with `loudness = calculateLoudness` symbolically (`sentinel` = -100.0,
`lufs x` = -0.691 + 10·log10 x). -/
theorem C1_published_loudness (pre rlb : BiquadCoeffs) (sampleRate : ℚ)
    (channels bufferChannels : ℕ) (fs : List (List ℚ)) (f : List ℚ)
    (hc : (meterRunH bufferChannels fs
        (meterPrepare pre rlb sampleRate channels, [])).1.samplesPerBlock ≤
      (((meterRunH bufferChannels fs
        (meterPrepare pre rlb sampleRate channels, [])).1.currentBlockSamples
          + 1 : ℕ) : ℤ))
    (h4 : kBlocksPerMomentary ≤ (meterRunH bufferChannels (fs ++ [f])
        (meterPrepare pre rlb sampleRate channels, [])).2.length) :
    getMomentaryLoudness (meterRunH bufferChannels (fs ++ [f])
        (meterPrepare pre rlb sampleRate channels, [])).1 =
      calculateLoudness
        (((meterRunH bufferChannels (fs ++ [f])
            (meterPrepare pre rlb sampleRate channels, [])).2.take
          kBlocksPerMomentary).sum / (kBlocksPerMomentary : ℚ)) ∧
    getShortTermLoudness (meterRunH bufferChannels (fs ++ [f])
        (meterPrepare pre rlb sampleRate channels, [])).1 =
      calculateLoudness
        ((meterRunH bufferChannels (fs ++ [f])
            (meterPrepare pre rlb sampleRate channels, [])).1.meanSquareBlocks.sum /
          (kBlocksPerShortTerm : ℚ)) := by
  have happ : meterRunH bufferChannels (fs ++ [f])
      (meterPrepare pre rlb sampleRate channels, []) =
      meterStepH bufferChannels f (meterRunH bufferChannels fs
        (meterPrepare pre rlb sampleRate channels, [])) := by
    rw [meterRunH, meterRunH, List.foldl_append, List.foldl_cons,
      List.foldl_nil]
  have hinv := ringInv_run bufferChannels fs
    (meterPrepare pre rlb sampleRate channels, [])
    (ringInv_prepare pre rlb sampleRate channels)
  have hpub := meterStep_publishes bufferChannels f
    (meterRunH bufferChannels fs
      (meterPrepare pre rlb sampleRate channels, [])).1
    (meterRunH bufferChannels fs
      (meterPrepare pre rlb sampleRate channels, [])).2
    hinv hc
  have hsnd : (meterStepH bufferChannels f (meterRunH bufferChannels fs
      (meterPrepare pre rlb sampleRate channels, []))).2 =
      completedMeanSquare bufferChannels f (meterRunH bufferChannels fs
        (meterPrepare pre rlb sampleRate channels, [])).1 ::
      (meterRunH bufferChannels fs
        (meterPrepare pre rlb sampleRate channels, [])).2 := by
    rw [meterStepH, if_pos hc]
  rw [happ, hsnd]
  exact ⟨hpub.1, hpub.2⟩

/-- Claim C1 witness: a toy meter (1 sample per block, zero active
channels) in which the fourth block completion publishes the take-4 history
mean and the 30-entry ring mean. -/
theorem C1_witness :
    ((meterRunH 0 [[], [], []]
        (meterPrepare ⟨1, 0, 0, 0, 0⟩ ⟨1, 0, 0, 0, 0⟩ 10 1, [])).1.samplesPerBlock ≤
      (((meterRunH 0 [[], [], []]
        (meterPrepare ⟨1, 0, 0, 0, 0⟩ ⟨1, 0, 0, 0, 0⟩ 10 1, [])).1.currentBlockSamples
          + 1 : ℕ) : ℤ)) ∧
    (kBlocksPerMomentary ≤ (meterRunH 0 ([[], [], []] ++ [[]])
        (meterPrepare ⟨1, 0, 0, 0, 0⟩ ⟨1, 0, 0, 0, 0⟩ 10 1, [])).2.length) ∧
    (getMomentaryLoudness (meterRunH 0 ([[], [], []] ++ [[]])
        (meterPrepare ⟨1, 0, 0, 0, 0⟩ ⟨1, 0, 0, 0, 0⟩ 10 1, [])).1 =
      calculateLoudness
        (((meterRunH 0 ([[], [], []] ++ [[]])
            (meterPrepare ⟨1, 0, 0, 0, 0⟩ ⟨1, 0, 0, 0, 0⟩ 10 1, [])).2.take
          kBlocksPerMomentary).sum / (kBlocksPerMomentary : ℚ)) ∧
    getShortTermLoudness (meterRunH 0 ([[], [], []] ++ [[]])
        (meterPrepare ⟨1, 0, 0, 0, 0⟩ ⟨1, 0, 0, 0, 0⟩ 10 1, [])).1 =
      calculateLoudness
        ((meterRunH 0 ([[], [], []] ++ [[]])
            (meterPrepare ⟨1, 0, 0, 0, 0⟩ ⟨1, 0, 0, 0, 0⟩ 10 1, [])).1.meanSquareBlocks.sum /
          (kBlocksPerShortTerm : ℚ))) := by
  have hspb : (meterPrepare ⟨1, 0, 0, 0, 0⟩ ⟨1, 0, 0, 0, 0⟩ 10 1).samplesPerBlock
      = 1 := by
    show truncQ ((10:ℚ) * (1/10)) = 1
    rw [truncQ, if_pos (by norm_num)]
    norm_num
  have hc : (meterRunH 0 [[], [], []]
      (meterPrepare ⟨1, 0, 0, 0, 0⟩ ⟨1, 0, 0, 0, 0⟩ 10 1, [])).1.samplesPerBlock ≤
      (((meterRunH 0 [[], [], []]
        (meterPrepare ⟨1, 0, 0, 0, 0⟩ ⟨1, 0, 0, 0, 0⟩ 10 1, [])).1.currentBlockSamples
          + 1 : ℕ) : ℤ) := by
    norm_num [meterRunH, meterStepH, meterStep, framePass, hspb]
  have h4 : kBlocksPerMomentary ≤ (meterRunH 0 ([[], [], []] ++ [[]])
      (meterPrepare ⟨1, 0, 0, 0, 0⟩ ⟨1, 0, 0, 0, 0⟩ 10 1, [])).2.length := by
    norm_num [meterRunH, meterStepH, meterStep, framePass, hspb,
      kBlocksPerMomentary]
  exact ⟨hc, h4, C1_published_loudness ⟨1, 0, 0, 0, 0⟩ ⟨1, 0, 0, 0, 0⟩ 10 1 0
    [[], [], []] [] hc h4⟩

end LoudnessMeter
